import Mathlib

/-!
# Verification of the diet-train-app import/validation pipeline

Shallow embedding of the document-oriented import pipeline of the
`fx006/diet-train-app` backend:

* `src/backend/app/services/excel_parser.py`  (tabular extractor + plan converter)
* `src/backend/app/services/pdf_parser.py`    (semi-structured extractor)
* `src/backend/app/services/data_validator.py` (record validator)
* `src/backend/app/services/file_validator.py` (format sniffer)

Python cell values are modelled by the inductive type `Value`
(None / str / int-float collapsed to `Rat` / datetime.date).  Python floats
are modelled as exact rationals: every numeric literal appearing in the
pipeline and in the claims is small and exactly representable, so no
rounding behaviour is observable.  Python dicts keyed by the canonical
field names are modelled as association lists over the inductive `FieldKey`.
Regular-expression searches are modelled by position-by-position matchers
that replicate Python's leftmost-match, ordered-alternation, greedy
semantics for the concrete patterns appearing in the source.
-/

set_option autoImplicit false

/-- A Python value as it flows through the parsing pipeline: `None`, a
string, a number (int/float collapsed; modelled exactly as a rational), or
a `datetime.date`/`datetime.datetime` object (modelled by its year, month
and day; a real Python `date` object always carries a valid calendar
date). -/
inductive Value where
  | none
  | str (s : String)
  | num (q : Rat)
  | pydate (y m d : Nat)
  deriving DecidableEq, Repr

/-- Python truthiness of a `Value`: `None`, `""` and `0` are falsy, a
`date` object is always truthy. -/
def pyTruthy : Value → Bool
  | Value.none => false
  | Value.str s => !(s == "")
  | Value.num q => !(q == 0)
  | Value.pydate _ _ _ => true

/-- The canonical semantic field keys used by the extractors, the
validator and the converter.  `ftype` embeds the Python key `"type"`. -/
inductive FieldKey where
  | date | ftype | name | meal_time | food | calories | exercise | duration | notes
  deriving DecidableEq, Repr

/-- The Python dict key string for each field. -/
def fieldName : FieldKey → String
  | FieldKey.date => "date"
  | FieldKey.ftype => "type"
  | FieldKey.name => "name"
  | FieldKey.meal_time => "meal_time"
  | FieldKey.food => "food"
  | FieldKey.calories => "calories"
  | FieldKey.exercise => "exercise"
  | FieldKey.duration => "duration"
  | FieldKey.notes => "notes"

/-- A row dict: an association list from canonical fields to values.  Keys
are unique by construction in every dict the embedded code builds. -/
abbrev Row : Type := List (FieldKey × Value)

/-- `row.get(f)`: the value bound to `f`, or `None`-as-absent. -/
def rowGet (r : Row) (f : FieldKey) : Option Value :=
  (r.find? (fun p => p.1 == f)).map (fun p => p.2)

/-- `row.get(f, d)`: lookup with a default. -/
def rowGetD (r : Row) (f : FieldKey) (d : Value) : Value :=
  (rowGet r f).getD d

/-- Truthiness of `row.get(f)` (Python `if row.get(f):`). -/
def pyTruthyO : Option Value → Bool
  | Option.none => false
  | Option.some v => pyTruthy v

/-- `row[f] = v`: replace the first binding of `f` in place, else append
(Python dict assignment; insertion order preserved). -/
def rowSet : Row → FieldKey → Value → Row
  | [], f, v => [(f, v)]
  | (g, w) :: t, f, v => if g == f then (f, v) :: t else (g, w) :: rowSet t f v

/-- `any(row.values())`: some bound value is truthy. -/
def anyTruthy (r : Row) : Bool := r.any (fun p => pyTruthy p.2)

/-- Enumerate a list with indices starting from `n` (Python
`enumerate(xs, start=n)`). -/
def enumFrom {α : Type} (n : Nat) : List α → List (Nat × α)
  | [] => []
  | a :: t => (n, a) :: enumFrom (n + 1) t

/-! ## Character and string utilities -/

/-- ASCII decimal digit (`\d` on the pipeline's ASCII/CJK input). -/
def isDigitC (c : Char) : Bool := c.isDigit

/-- Python `str.strip` whitespace set (the ASCII whitespace characters;
the pipeline never feeds exotic Unicode whitespace). -/
def isWsC (c : Char) : Bool :=
  c == ' ' || c == '\t' || c == '\n' || c == '\r' || c == '\x0b' || c == '\x0c'

/-- Numeric value of a digit string (Python `int` on an all-digit
string). -/
def natOfDigits (cs : List Char) : Nat :=
  cs.foldl (fun a c => 10 * a + (c.toNat - 48)) 0

/-- Strip leading and trailing whitespace from a character list. -/
def stripWsL (cs : List Char) : List Char :=
  ((cs.dropWhile isWsC).reverse.dropWhile isWsC).reverse

/-- Python `str.strip()`. -/
def pyStrip (s : String) : String := String.mk (stripWsL s.toList)

/-- `needle` is a prefix of `hay`. -/
def isPrefixL (needle hay : List Char) : Bool :=
  match needle, hay with
  | [], _ => true
  | _ :: _, [] => false
  | a :: as, b :: bs => a == b && isPrefixL as bs

/-- `needle in hay` (Python substring containment). -/
def containsSub (needle : List Char) : List Char → Bool
  | [] => isPrefixL needle []
  | c :: t => isPrefixL needle (c :: t) || containsSub needle t

/-- Python `sub in s` on strings. -/
def containsSubStr (needle hay : String) : Bool :=
  containsSub needle.toList hay.toList

/-- Python `str.lower()` (ASCII case folding; CJK characters are
unaffected, as in Python). -/
def lowerStr (s : String) : String := String.mk (s.toList.map Char.toLower)

/-- Decimal representation used when the pipeline stringifies a number
(Python `str` on a float prints a trailing `.0` for integral values; a
non-integral rational is shown as `num/den`, a modelling simplification —
no claim inspects the textual form of a non-integral number). -/
def ratRepr (q : Rat) : String :=
  if q.den == 1 then toString q.num ++ ".0"
  else toString q.num ++ "/" ++ toString q.den

/-- Python `str(value)`. -/
def pyStrV : Value → String
  | Value.none => "None"
  | Value.str s => s
  | Value.num q => ratRepr q
  | Value.pydate y m d =>
      toString y ++ "-" ++ (if m < 10 then "0" else "") ++ toString m
        ++ "-" ++ (if d < 10 then "0" else "") ++ toString d

/-! ## Python `float()` on strings

Models CPython's `float` constructor on the strings this pipeline can
feed it: optional surrounding whitespace, an optional sign, a decimal
mantissa (digits, with an optional fractional part), and an optional
decimal exponent.  `inf`/`nan` spellings and digit-group underscores are
not modelled (no pipeline input contains them).  The result is the exact
rational value; see the header note on exactness. -/

/-- Split a leading digit run. -/
def spanDigits (cs : List Char) : List Char × List Char :=
  (cs.takeWhile isDigitC, cs.dropWhile isDigitC)

/-- Parse the exponent part `[+-]?\d+` and require end of input. -/
def floatExpPart (cs : List Char) : Option Int :=
  let (sgn, cs1) : Int × List Char :=
    match cs with
    | '+' :: t => (1, t)
    | '-' :: t => (-1, t)
    | t => (1, t)
  let (ds, rest) := spanDigits cs1
  if ds.isEmpty then Option.none
  else if rest.isEmpty then Option.some (sgn * (natOfDigits ds : Int))
  else Option.none

/-- The exact rational `n / 10 ^ fracLen` scaled by a base-10 exponent
(built through `mkRat`, integer numerator over power-of-ten
denominator). -/
def decimalRat (n : Int) (fracLen : Nat) (e : Int) : Rat :=
  match e with
  | Int.ofNat k => mkRat (n * (10 : Int) ^ k) ((10 : Nat) ^ fracLen)
  | Int.negSucc k => mkRat n ((10 : Nat) ^ (fracLen + k + 1))

/-- Python `float(s)` on a character list; `Option.none` models
`ValueError`. -/
def floatOfChars (cs0 : List Char) : Option Rat :=
  let cs := stripWsL cs0
  let (sgn, cs1) : Int × List Char :=
    match cs with
    | '+' :: t => (1, t)
    | '-' :: t => (-1, t)
    | t => (1, t)
  let (ip, r1) := spanDigits cs1
  let (fp, r2) : List Char × List Char :=
    match r1 with
    | '.' :: t => spanDigits t
    | t => ([], t)
  if ip.isEmpty && fp.isEmpty then Option.none
  else
    let mantNum : Int := sgn * (natOfDigits (ip ++ fp) : Int)
    match r2 with
    | [] => Option.some (decimalRat mantNum fp.length 0)
    | 'e' :: t => (floatExpPart t).map (decimalRat mantNum fp.length)
    | 'E' :: t => (floatExpPart t).map (decimalRat mantNum fp.length)
    | _ => Option.none

/-- Python `float(s)` on a string. -/
def floatOfString (s : String) : Option Rat := floatOfChars s.toList

/-- Python `float(value)` on a `Value`; `Option.none` models
`ValueError`/`TypeError` (`None` and `date` objects are not
convertible). -/
def pyFloat : Value → Option Rat
  | Value.num q => Option.some q
  | Value.str s => floatOfString s
  | _ => Option.none

/-! ## Calendar dates -/

/-- Gregorian leap year (as in `datetime`). -/
def isLeap (y : Nat) : Bool :=
  (y % 4 == 0 && !(y % 100 == 0)) || y % 400 == 0

/-- Days in a month (as in `datetime`). -/
def daysInMonth (y m : Nat) : Nat :=
  if m == 2 then (if isLeap y then 29 else 28)
  else if m == 4 || m == 6 || m == 9 || m == 11 then 30
  else 31

/-- `datetime.date(y, m, d)` constructs without raising. -/
def validYMD (y m d : Nat) : Bool :=
  1 ≤ y && y ≤ 9999 && 1 ≤ m && m ≤ 12 && 1 ≤ d && d ≤ daysInMonth y m

/-- Zero-pad a number to two digits. -/
def pad2 (n : Nat) : String := (if n < 10 then "0" else "") ++ toString n

/-- `date.strftime('%Y-%m-%d')` (glibc prints the year unpadded; all
years reaching this function in the claims are four-digit). -/
def fmtDate (y m d : Nat) : String :=
  toString y ++ "-" ++ pad2 m ++ "-" ++ pad2 d

/-- `date(int(y), int(m), int(d)).strftime('%Y-%m-%d')`, with
`Option.none` modelling the `ValueError` on an invalid calendar date. -/
def mkDate (y m d : Nat) : Option String :=
  if validYMD y m d then Option.some (fmtDate y m d) else Option.none

/-! ## The three date regular expressions

Shared by `ExcelParser._parse_date` and `PDFParser._extract_date`, whose
pattern tables and dispatch logic are verbatim duplicates in the source.
Each matcher replicates `re.search` at one position; `searchL` scans
positions left to right (leftmost match). -/

/-- Take exactly `n` ASCII digits. -/
def takeDigitsN : Nat → List Char → Option (List Char × List Char)
  | 0, cs => Option.some ([], cs)
  | Nat.succ n, c :: cs =>
      if isDigitC c then (takeDigitsN n cs).map (fun p => (c :: p.1, p.2))
      else Option.none
  | Nat.succ _, [] => Option.none

/-- A date separator `[-or-slash]`. -/
def isSepC (c : Char) : Bool := c == '-' || c == '/'

/-- Scan positions left to right and return the first position where the
matcher succeeds (the semantics of `re.search`). -/
def searchL {α : Type} (m : List Char → Option α) : List Char → Option α
  | [] => m []
  | c :: t =>
    match m (c :: t) with
    | Option.some r => Option.some r
    | Option.none => searchL m t

/-- Greedy `(\d{1,2})[-or-slash](\d{1,2})` followed by the rest of the pattern
encoded by the caller; tries a two-digit month first, then one digit
(Python backtracking).  Returns the month and day digit groups. -/
def tryMDatLen (r2 : List Char) (mlen : Nat) : Option (List Char × List Char) :=
  match takeDigitsN mlen r2 with
  | Option.some (m, c2 :: r3) =>
      if isSepC c2 then
        match takeDigitsN 2 r3 with
        | Option.some (d, _) => Option.some (m, d)
        | Option.none =>
          match takeDigitsN 1 r3 with
          | Option.some (d, _) => Option.some (m, d)
          | Option.none => Option.none
      else Option.none
  | _ => Option.none

/-- Match `(\d{4})[-or-slash](\d{1,2})[-or-slash](\d{1,2})` at this position. -/
def matchYMD (cs : List Char) : Option (List Char × List Char × List Char) :=
  match takeDigitsN 4 cs with
  | Option.some (y, s1 :: r1) =>
      if isSepC s1 then
        match tryMDatLen r1 2 with
        | Option.some (m, d) => Option.some (y, m, d)
        | Option.none =>
          match tryMDatLen r1 1 with
          | Option.some (m, d) => Option.some (y, m, d)
          | Option.none => Option.none
      else Option.none
  | _ => Option.none

/-- One alternative of `(\d{1,2})[-or-slash](\d{1,2})[-or-slash](\d{4})` with fixed
month/day group widths. -/
def tryMDYat (cs : List Char) (mlen dlen : Nat) : Option (List Char × List Char × List Char) :=
  match takeDigitsN mlen cs with
  | Option.some (m, c1 :: r1) =>
      if isSepC c1 then
        match takeDigitsN dlen r1 with
        | Option.some (d, c2 :: r2) =>
            if isSepC c2 then
              match takeDigitsN 4 r2 with
              | Option.some (y, _) => Option.some (m, d, y)
              | Option.none => Option.none
            else Option.none
        | _ => Option.none
      else Option.none
  | _ => Option.none

/-- Match `(\d{1,2})[-or-slash](\d{1,2})[-or-slash](\d{4})` at one position, trying the
greedy group widths in Python's backtracking order. -/
def matchMDY (cs : List Char) : Option (List Char × List Char × List Char) :=
  match tryMDYat cs 2 2 with
  | Option.some r => Option.some r
  | Option.none =>
    match tryMDYat cs 2 1 with
    | Option.some r => Option.some r
    | Option.none =>
      match tryMDYat cs 1 2 with
      | Option.some r => Option.some r
      | Option.none => tryMDYat cs 1 1

/-- `\d{1,2}` directly followed by a required literal character; greedy
two digits first. -/
def tryDigitsThenLit (r : List Char) (lit : Char) (len : Nat) : Option (List Char × List Char) :=
  match takeDigitsN len r with
  | Option.some (g, c :: rest) => if c == lit then Option.some (g, rest) else Option.none
  | _ => Option.none

/-- Match `(\d{4})年(\d{1,2})月(\d{1,2})日` at one position. -/
def matchCJK (cs : List Char) : Option (List Char × List Char × List Char) :=
  match takeDigitsN 4 cs with
  | Option.some (y, c1 :: r1) =>
      if c1 == '年' then
        let monthPart :=
          match tryDigitsThenLit r1 '月' 2 with
          | Option.some r => Option.some r
          | Option.none => tryDigitsThenLit r1 '月' 1
        match monthPart with
        | Option.some (m, r2) =>
            let dayPart :=
              match tryDigitsThenLit r2 '日' 2 with
              | Option.some r => Option.some r
              | Option.none => tryDigitsThenLit r2 '日' 1
            match dayPart with
            | Option.some (d, _) => Option.some (y, m, d)
            | Option.none => Option.none
        | Option.none => Option.none
      else Option.none
  | _ => Option.none

/-- From one pattern's match groups, apply the source's group-order
dispatch (`len(groups[0]) == 4` means year first) and attempt to build a
valid date; `Option.none` models the `ValueError → continue`. -/
def dateFromGroups (g : List Char × List Char × List Char) : Option String :=
  let a := g.1
  let b := g.2.1
  let c := g.2.2
  let ymd := if a.length == 4 then (a, b, c) else (c, a, b)
  mkDate (natOfDigits ymd.1) (natOfDigits ymd.2.1) (natOfDigits ymd.2.2)

/-- The shared `for pattern in date_patterns` loop of
`ExcelParser._parse_date` and `PDFParser._extract_date`: try the three
patterns in order; a regex match whose calendar date is invalid falls
through to the next pattern (`except ValueError: continue`). -/
def searchDatePatterns (s : String) : Option String :=
  match (searchL matchYMD s.toList).bind dateFromGroups with
  | Option.some r => Option.some r
  | Option.none =>
    match (searchL matchMDY s.toList).bind dateFromGroups with
    | Option.some r => Option.some r
    | Option.none => (searchL matchCJK s.toList).bind dateFromGroups

/-! ## ExcelParser value normalizers -/

namespace ExcelParser

/-- `ExcelParser._parse_date`: falsy cells are absent, native
date/datetime objects are formatted directly, strings go through the
three-pattern search, anything else is absent. -/
def parse_date (v : Value) : Option String :=
  if pyTruthy v = false then Option.none
  else
    match v with
    | Value.pydate y m d => Option.some (fmtDate y m d)
    | Value.str s => searchDatePatterns s
    | _ => Option.none

/-- The character class kept by `re.sub(r'[^\d.-]', '', value)`. -/
def keepNumChar (c : Char) : Bool := isDigitC c || c == '.' || c == '-'

/-- `ExcelParser._parse_number`: falsy cells are absent, native numbers
pass through as `float`, strings are stripped to `[0-9.-]` and parsed
with `float()`; a parse failure is absent. -/
def parse_number (v : Value) : Option Rat :=
  if pyTruthy v = false then Option.none
  else
    match v with
    | Value.num q => Option.some q
    | Value.str s => floatOfChars (s.toList.filter keepNumChar)
    | _ => Option.none

/-- `ExcelParser._parse_text`: falsy cells are absent, anything else is
stringified and whitespace-trimmed. -/
def parse_text (v : Value) : Option String :=
  if pyTruthy v = false then Option.none
  else Option.some (pyStrip (pyStrV v))

end ExcelParser

/-! ## ExcelParser worksheet pipeline -/

namespace ExcelParser

/-- `ExcelParser.COLUMN_KEYWORDS`, in Python dict insertion order (the
order matters: the first matching field wins per header cell). -/
def COLUMN_KEYWORDS : List (FieldKey × List String) :=
  [ (FieldKey.date, ["日期", "date", "时间", "time", "日", "day"])
  , (FieldKey.ftype, ["类型", "type", "种类", "category"])
  , (FieldKey.name, ["名称", "name", "项目", "item"])
  , (FieldKey.meal_time, ["餐次", "用餐时间", "meal", "餐食时间", "早中晚", "meal time"])
  , (FieldKey.food, ["食物", "食品", "food", "菜品", "餐食内容", "内容"])
  , (FieldKey.calories, ["热量", "卡路里", "calories", "kcal", "能量", "calorie"])
  , (FieldKey.exercise, ["运动", "锻炼", "exercise", "训练", "活动"])
  , (FieldKey.duration, ["时长", "时间", "duration", "time", "分钟", "min", "minute"])
  , (FieldKey.notes, ["备注", "说明", "notes", "remark", "描述", "note"]) ]

/-- `any(keyword.lower() in cell_str for keyword in keywords)` for one
field's keyword list, `cell_str` already lowercased. -/
def keywordHit (kws : List String) (cellStr : String) : Bool :=
  kws.any (fun kw => containsSub (lowerStr kw).toList cellStr.toList)

/-- Does the lowercased cell string contain any keyword of any field? -/
def cellHasKeyword (cellStr : String) : Bool :=
  COLUMN_KEYWORDS.any (fun p => keywordHit p.2 cellStr)

/-- `ExcelParser._is_header_row`: a row is a header when it has a
non-empty cell and at least 40% of its non-empty cells contain a keyword.
The source compares with the float `non_empty_count * 0.4`; this is
modelled as the exact rational comparison `5 * k ≥ 2 * n` (the
double-rounding of `0.4` is observable only at exact-threshold counts
that no claim exercises). -/
def is_header_row (row : List Value) : Bool :=
  let nonEmpty := row.countP pyTruthy
  let kwCount := row.countP (fun cell =>
    pyTruthy cell && cellHasKeyword (lowerStr (pyStrV cell)))
  nonEmpty > 0 && 5 * kwCount ≥ 2 * nonEmpty

/-- The first field (in dict order) whose keyword list matches the
lowercased cell string. -/
def findFieldFor (cellStr : String) : Option FieldKey :=
  (COLUMN_KEYWORDS.find? (fun p => keywordHit p.2 cellStr)).map (fun p => p.1)

/-- The column-mapping table: the header row index and a partial map from
fields to 1-based column indices. -/
structure ColMap where
  headerRow : Nat
  cols : FieldKey → Option Nat

/-- Functional update of the field-to-column map (later assignments to
the same field overwrite, as Python dict assignment does). -/
def colUpdate (m : FieldKey → Option Nat) (f : FieldKey) (c : Nat) : FieldKey → Option Nat :=
  fun g => if g == f then Option.some c else m g

/-- `ExcelParser._map_columns`: walk the header cells (1-based), skip
falsy cells, bind the first matching field of each cell to that column. -/
def map_columns (headerRow : List Value) (rowIdx : Nat) : ColMap :=
  { headerRow := rowIdx
  , cols := (enumFrom 1 headerRow).foldl
      (fun m p =>
        if pyTruthy p.2 then
          match findFieldFor (lowerStr (pyStrV p.2)) with
          | Option.some f => colUpdate m f p.1
          | Option.none => m
        else m)
      (fun _ => Option.none) }

/-- `ExcelParser._use_default_mapping`: the fixed positional mapping. -/
def default_mapping : ColMap :=
  { headerRow := 1
  , cols := fun f =>
      match f with
      | FieldKey.date => Option.some 1
      | FieldKey.meal_time => Option.some 2
      | FieldKey.food => Option.some 3
      | FieldKey.calories => Option.some 4
      | FieldKey.exercise => Option.some 5
      | FieldKey.duration => Option.some 6
      | FieldKey.notes => Option.some 7
      | _ => Option.none }

/-- A worksheet: the list of rows (row `i`, 1-based, is entry `i-1`),
each row the list of its cell values.  `max_row` is the list length. -/
def Worksheet : Type := List (List Value)

/-- Row `r` (1-based) of the worksheet, as `iter_rows` yields it. -/
def rowAt (ws : Worksheet) (r : Nat) : List Value :=
  (List.get? (α := List Value) ws (r - 1)).getD []

/-- `worksheet.cell(r, c).value` (1-based; cells beyond the stored grid
read as `None`). -/
def cellAt (ws : Worksheet) (r c : Nat) : Value :=
  match List.get? (α := List Value) ws (r - 1) with
  | Option.some row => (List.get? row (c - 1)).getD Value.none
  | Option.none => Value.none

/-- `ExcelParser._identify_columns`: scan the first five rows for a
header row; fall back to the default mapping when none is found. -/
def identify_columns (ws : Worksheet) : ColMap :=
  let candidates := (List.range (min 5 ws.length)).map (fun i => i + 1)
  match candidates.find? (fun r => is_header_row (rowAt ws r)) with
  | Option.some r => map_columns (rowAt ws r) r
  | Option.none => default_mapping

/-- The canonical field order used when materialising a row dict (Python
dict iteration order never affects the dict's contents, only the order
keys were inserted; iterating in this fixed order is observationally
identical). -/
def allFields : List FieldKey :=
  [ FieldKey.date, FieldKey.ftype, FieldKey.name, FieldKey.meal_time, FieldKey.food
  , FieldKey.calories, FieldKey.exercise, FieldKey.duration, FieldKey.notes ]

/-- Per-field cell coercion of `ExcelParser._extract_row`. -/
def convertCell (f : FieldKey) (v : Value) : Value :=
  match f with
  | FieldKey.date =>
      match parse_date v with
      | Option.some s => Value.str s
      | Option.none => Value.none
  | FieldKey.calories =>
      match parse_number v with
      | Option.some q => Value.num q
      | Option.none => Value.none
  | FieldKey.duration =>
      match parse_number v with
      | Option.some q => Value.num q
      | Option.none => Value.none
  | _ =>
      match parse_text v with
      | Option.some s => Value.str s
      | Option.none => Value.none

/-- `ExcelParser._extract_row`: read every mapped column of row
`rowIdx`, coercing each cell by field kind.  Every mapped field is bound
in the resulting dict (possibly to `None`). -/
def extract_row (ws : Worksheet) (cm : ColMap) (rowIdx : Nat) : Row :=
  allFields.filterMap (fun f =>
    match cm.cols f with
    | Option.some c => Option.some (f, convertCell f (cellAt ws rowIdx c))
    | Option.none => Option.none)

/-- `ExcelParser._extract_data`: read all rows after the header row,
skipping rows whose mapped values are all falsy. -/
def extract_data (ws : Worksheet) (cm : ColMap) : List Row :=
  ((List.range (ws.length - cm.headerRow)).map (fun i => cm.headerRow + 1 + i)).filterMap
    (fun r =>
      let rd := extract_row ws cm r
      if !(rd == ([] : Row)) && anyTruthy rd then Option.some rd else Option.none)

/-- `ExcelParser.parse_file` after a successful workbook open: identify
the columns, then extract the data rows. -/
def parse (ws : Worksheet) : List Row :=
  extract_data ws (identify_columns ws)

end ExcelParser

/-! ## Plan conversion (`excel_parser.convert_to_plan_items`) -/

/-- A meal entry as the converter emits it (`date`/`meal_time`/`food`/
`calories`/`notes` retain whatever value the row held, with the
converter's defaults for absent keys). -/
structure MealEntry where
  date : Value
  meal_time : Value
  food : Value
  calories : Value
  notes : Value
  deriving DecidableEq, Repr

/-- An exercise entry as the converter emits it. -/
structure ExerciseEntry where
  date : Value
  name : Value
  duration : Value
  calories_burned : Value
  notes : Value
  deriving DecidableEq, Repr

/-- The converter's result dict `{meals, exercises}`. -/
structure PlanItems where
  meals : List MealEntry
  exercises : List ExerciseEntry
  deriving DecidableEq, Repr

/-- Decidable equality for `Except` results (component-wise). -/
instance {ε α : Type} [DecidableEq ε] [DecidableEq α] : DecidableEq (Except ε α) := fun a b =>
  match a, b with
  | Except.ok x, Except.ok y =>
      if h : x = y then Decidable.isTrue (by rw [h])
      else Decidable.isFalse (by intro hc; injection hc; contradiction)
  | Except.ok _, Except.error _ => Decidable.isFalse (by intro hc; injection hc)
  | Except.error _, Except.ok _ => Decidable.isFalse (by intro hc; injection hc)
  | Except.error x, Except.error y =>
      if h : x = y then Decidable.isTrue (by rw [h])
      else Decidable.isFalse (by intro hc; injection hc; contradiction)

/-- `row.get(f, '').strip()`: total only when the looked-up value is a
string; an `Except.error` models the `AttributeError` Python raises when
`.strip()` is called on `None` (or any non-string). -/
def getStrip (row : Row) (f : FieldKey) : Except String String :=
  match rowGetD row f (Value.str "") with
  | Value.str s => Except.ok (pyStrip s)
  | _ => Except.error "AttributeError"

/-- The meal synonym list of the converter's explicit layout. -/
def mealTypeSynonyms : List String := ["餐食", "meal", "食物"]

/-- The exercise synonym list of the converter's explicit layout. -/
def exerciseTypeSynonyms : List String := ["运动", "exercise", "锻炼"]

/-- One loop iteration of `convert_to_plan_items`: the meal entries and
exercise entries this row contributes, or the exception it raises. -/
def convertRow (row : Row) : Except String (List MealEntry × List ExerciseEntry) :=
  match getStrip row FieldKey.ftype with
  | Except.error e => Except.error e
  | Except.ok item_type =>
    match getStrip row FieldKey.name with
    | Except.error e => Except.error e
    | Except.ok item_name =>
      if !(item_type == "") && !(item_name == "") then
        if mealTypeSynonyms.contains item_type then
          Except.ok
            ([ { date := rowGetD row FieldKey.date Value.none
               , meal_time := rowGetD row FieldKey.meal_time (Value.str "未指定")
               , food := Value.str item_name
               , calories := rowGetD row FieldKey.calories (Value.num 0)
               , notes := rowGetD row FieldKey.notes Value.none } ], [])
        else if exerciseTypeSynonyms.contains item_type then
          Except.ok
            ([], [ { date := rowGetD row FieldKey.date Value.none
                   , name := Value.str item_name
                   , duration := rowGetD row FieldKey.duration (Value.num 0)
                   , calories_burned := rowGetD row FieldKey.calories (Value.num 0)
                   , notes := rowGetD row FieldKey.notes Value.none } ])
        else Except.ok ([], [])
      else
        Except.ok
          ( (if pyTruthyO (rowGet row FieldKey.food) then
               [ { date := rowGetD row FieldKey.date Value.none
                 , meal_time := rowGetD row FieldKey.meal_time (Value.str "未指定")
                 , food := rowGetD row FieldKey.food Value.none
                 , calories := rowGetD row FieldKey.calories (Value.num 0)
                 , notes := rowGetD row FieldKey.notes Value.none } ]
             else [])
          , (if pyTruthyO (rowGet row FieldKey.exercise) then
               [ { date := rowGetD row FieldKey.date Value.none
                 , name := rowGetD row FieldKey.exercise Value.none
                 , duration := rowGetD row FieldKey.duration (Value.num 0)
                 , calories_burned := rowGetD row FieldKey.calories (Value.num 0)
                 , notes := rowGetD row FieldKey.notes Value.none } ]
             else []) )

/-- `excel_parser.convert_to_plan_items`: accumulate each row's meal and
exercise entries in row order; the first raising row aborts the whole
call (Python propagates the exception). -/
def convert_to_plan_items (parsed_data : List Row) : Except String PlanItems :=
  match parsed_data.mapM convertRow with
  | Except.ok pairs =>
      Except.ok
        { meals := (pairs.map (fun p => p.1)).flatten
        , exercises := (pairs.map (fun p => p.2)).flatten }
  | Except.error e => Except.error e

/-! ## DataValidator (`data_validator.py`) -/

namespace DataValidator

/-- `ValidationErrorType`. -/
inductive VErrorType where
  | missing_required_field | invalid_format | invalid_value | out_of_range | empty_data
  deriving DecidableEq, Repr

/-- A `ValidationError` record. -/
structure VError where
  error_type : VErrorType
  field : String
  message : String
  row_index : Option Nat
  value : Option Value
  deriving DecidableEq, Repr

/-- A `ValidationResult`: ordered errors and warnings. -/
structure ValidationResult where
  errors : List VError
  warnings : List String
  deriving DecidableEq, Repr

/-- `ValidationResult.is_valid`. -/
def is_valid (r : ValidationResult) : Bool := r.errors.length == 0

/-- `DataValidator.REQUIRED_FIELDS` (keys `meal` and `exercise` only). -/
def REQUIRED_FIELDS (data_type : String) : Option (List FieldKey) :=
  if data_type == "meal" then Option.some [FieldKey.date]
  else if data_type == "exercise" then Option.some [FieldKey.date]
  else Option.none

/-- `DataValidator.RECOMMENDED_FIELDS`. -/
def RECOMMENDED_FIELDS (data_type : String) : Option (List FieldKey) :=
  if data_type == "meal" then Option.some [FieldKey.meal_time, FieldKey.food, FieldKey.calories]
  else if data_type == "exercise" then Option.some [FieldKey.name, FieldKey.duration]
  else Option.none

/-- One `strptime` month or day token: two digits in `lo..hi` (the
two-digit alternatives of the `_strptime` regex, `00` excluded). -/
def mdTok2 (hi : Nat) (r : List Char) : Option (Nat × List Char) :=
  match takeDigitsN 2 r with
  | Option.some (ds, rest) =>
      let v := natOfDigits ds
      if 1 ≤ v && v ≤ hi then Option.some (v, rest) else Option.none
  | Option.none => Option.none

/-- One-digit `strptime` month/day token (`[1-9]`). -/
def mdTok1 (r : List Char) : Option (Nat × List Char) :=
  match r with
  | c :: rest => if isDigitC c && !(c == '0') then Option.some (c.toNat - 48, rest) else Option.none
  | [] => Option.none

/-- `datetime.strptime(s, '%Y<sep>%m<sep>%d')` succeeds: a four-digit
year, month and day tokens (two-digit alternatives tried before the
one-digit one, with backtracking as in the `_strptime` regex), the whole
string consumed, and the calendar date constructible. -/
def strpYmd (sep : Char) (cs : List Char) : Bool :=
  match takeDigitsN 4 cs with
  | Option.some (yds, c1 :: r1) =>
      let y := natOfDigits yds
      let dayEnd := fun (m : Nat) (r2 : List Char) =>
        (match mdTok2 31 r2 with
         | Option.some (d, []) => validYMD y m d
         | _ => false)
        || (match mdTok1 r2 with
            | Option.some (d, []) => validYMD y m d
            | _ => false)
      let month2 :=
        match mdTok2 12 r1 with
        | Option.some (m, c2 :: r2) => c2 == sep && dayEnd m r2
        | _ => false
      let month1 :=
        match mdTok1 r1 with
        | Option.some (m, c2 :: r2) => c2 == sep && dayEnd m r2
        | _ => false
      c1 == sep && (month2 || month1)
  | _ => false

/-- `datetime.strptime(s, '%d<sep>%m<sep>%Y')` succeeds. -/
def strpDmy (sep : Char) (cs : List Char) : Bool :=
  let yearEnd := fun (d m : Nat) (r : List Char) =>
    match takeDigitsN 4 r with
    | Option.some (yds, []) => validYMD (natOfDigits yds) m d
    | _ => false
  let monthPart := fun (d : Nat) (r1 : List Char) =>
    (match mdTok2 12 r1 with
     | Option.some (m, c2 :: r2) => c2 == sep && yearEnd d m r2
     | _ => false)
    || (match mdTok1 r1 with
        | Option.some (m, c2 :: r2) => c2 == sep && yearEnd d m r2
        | _ => false)
  (match mdTok2 31 cs with
   | Option.some (d, c1 :: r1) => c1 == sep && monthPart d r1
   | _ => false)
  || (match mdTok1 cs with
      | Option.some (d, c1 :: r1) => c1 == sep && monthPart d r1
      | _ => false)

/-- `DataValidator._is_valid_date`: native date/datetime objects are
valid; strings must satisfy one of the four `strptime` formats
`%Y-%m-%d`, `%Y/%m/%d`, `%d-%m-%Y`, `%d/%m/%Y`. -/
def is_valid_date (v : Value) : Bool :=
  match v with
  | Value.pydate _ _ _ => true
  | Value.str s =>
      strpYmd '-' s.toList || strpYmd '/' s.toList
        || strpDmy '-' s.toList || strpDmy '/' s.toList
  | _ => false

/-- `DataValidator._is_valid_number`: `float(value)` must succeed and the
result must satisfy the optional bounds. -/
def is_valid_number (v : Value) (min_value max_value : Option Rat) : Bool :=
  match pyFloat v with
  | Option.some q =>
      (match min_value with
       | Option.some m => !(q < m)
       | Option.none => true)
      && (match max_value with
          | Option.some m => !(m < q)
          | Option.none => true)
  | Option.none => false

/-- `DataValidator._is_valid_text`: a string of at most `max_length`
characters. -/
def is_valid_text (v : Value) (max_length : Nat) : Bool :=
  match v with
  | Value.str s => s.length ≤ max_length
  | _ => false

/-- The `MissingRequiredField` errors of one row. -/
def requiredErrors (row : Row) (row_index : Nat) (data_type : String) : List VError :=
  match REQUIRED_FIELDS data_type with
  | Option.some fs =>
      fs.filterMap (fun f =>
        if pyTruthyO (rowGet row f) then Option.none
        else Option.some
          { error_type := VErrorType.missing_required_field
          , field := fieldName f
          , message := "缺少必需字段: " ++ fieldName f
          , row_index := Option.some row_index
          , value := Option.none })
  | Option.none => []

/-- The missing-recommended-fields warning of one row (at most one,
listing every missing recommended field). -/
def recommendedWarnings (row : Row) (row_index : Nat) (data_type : String) : List String :=
  match RECOMMENDED_FIELDS data_type with
  | Option.some fs =>
      let missing := fs.filter (fun f => !(pyTruthyO (rowGet row f)))
      if missing.isEmpty then []
      else ["行 " ++ toString row_index ++ " 缺少推荐字段: "
              ++ String.intercalate ", " (missing.map fieldName)]
  | Option.none => []

/-- The `InvalidFormat` date error of one row (`date` present and truthy
but matching no accepted format). -/
def dateErrors (row : Row) (row_index : Nat) : List VError :=
  match rowGet row FieldKey.date with
  | Option.some v =>
      if pyTruthy v && !(is_valid_date v) then
        [ { error_type := VErrorType.invalid_format
          , field := "date"
          , message := "日期格式无效: " ++ pyStrV v
          , row_index := Option.some row_index
          , value := Option.some v } ]
      else []
  | Option.none => []

/-- The `InvalidValue` calories error of one row (`calories` present and
not `None`, but not a number in `[0, 10000]`). -/
def caloriesErrors (row : Row) (row_index : Nat) : List VError :=
  match rowGet row FieldKey.calories with
  | Option.some v =>
      if !(v == Value.none) && !(is_valid_number v (Option.some 0) (Option.some 10000)) then
        [ { error_type := VErrorType.invalid_value
          , field := "calories"
          , message := "热量值无效或超出范围 (0-10000): " ++ pyStrV v
          , row_index := Option.some row_index
          , value := Option.some v } ]
      else []
  | Option.none => []

/-- The `InvalidValue` duration error of one row. -/
def durationErrors (row : Row) (row_index : Nat) : List VError :=
  match rowGet row FieldKey.duration with
  | Option.some v =>
      if !(v == Value.none) && !(is_valid_number v (Option.some 0) (Option.some 1440)) then
        [ { error_type := VErrorType.invalid_value
          , field := "duration"
          , message := "时长值无效或超出范围 (0-1440分钟): " ++ pyStrV v
          , row_index := Option.some row_index
          , value := Option.some v } ]
      else []
  | Option.none => []

/-- The free-text fields length-checked by `_validate_row`. -/
def text_fields : List FieldKey :=
  [FieldKey.food, FieldKey.meal_time, FieldKey.exercise, FieldKey.name, FieldKey.notes]

/-- The over-length text errors of one row. -/
def textErrors (row : Row) (row_index : Nat) : List VError :=
  text_fields.filterMap (fun f =>
    match rowGet row f with
    | Option.some v =>
        if pyTruthy v && !(is_valid_text v 500) then
          Option.some
            { error_type := VErrorType.invalid_value
            , field := fieldName f
            , message := "文本字段过长 (最大500字符): " ++ fieldName f
            , row_index := Option.some row_index
            , value := Option.none }
        else Option.none
    | Option.none => Option.none)

/-- `DataValidator._validate_row`: the errors and warnings one row
appends to the result, in source order. -/
def validate_row (row : Row) (row_index : Nat) (data_type : String) : List VError × List String :=
  ( requiredErrors row row_index data_type
      ++ dateErrors row row_index
      ++ caloriesErrors row row_index
      ++ durationErrors row row_index
      ++ textErrors row row_index
  , recommendedWarnings row row_index data_type )

/-- The `EmptyData` error issued for an empty batch. -/
def emptyDataError : VError :=
  { error_type := VErrorType.empty_data
  , field := "data"
  , message := "解析结果为空，未找到任何有效数据"
  , row_index := Option.none
  , value := Option.none }

/-- `DataValidator.validate_parsed_data`: an empty batch short-circuits
with the single `EmptyData` error; otherwise every row is validated in
order (1-based indices) and, when no error was recorded, one summary
warning is appended. -/
def validate_parsed_data (data : List Row) (data_type : String) : ValidationResult :=
  if data.isEmpty then { errors := [emptyDataError], warnings := [] }
  else
    let per := (enumFrom 1 data).map (fun p => validate_row p.2 p.1 data_type)
    let errs := (per.map (fun p => p.1)).flatten
    let warns := (per.map (fun p => p.2)).flatten
    if errs.length == 0 then
      { errors := errs
      , warnings := warns ++ ["成功验证 " ++ toString data.length ++ " 条数据"] }
    else { errors := errs, warnings := warns }

end DataValidator

/-! ## PDFParser (`pdf_parser.py`) -/

namespace PDFParser

/-- Case-insensitive literal match at the head of `cs` (the
`re.IGNORECASE` flag; CJK characters are unaffected by case folding).
Returns the matched original characters and the remainder. -/
def ciMatchLit (lit : List Char) (cs : List Char) : Option (List Char × List Char) :=
  match lit, cs with
  | [], rest => Option.some ([], rest)
  | _ :: _, [] => Option.none
  | a :: la, b :: lb =>
      if a.toLower == b.toLower then
        (ciMatchLit la lb).map (fun p => (b :: p.1, p.2))
      else Option.none

/-- Ordered alternation of literals at one position (Python alternation
tries the alternatives left to right). -/
def matchLits (lits : List (List Char)) (cs : List Char) : Option (List Char × List Char) :=
  match lits with
  | [] => Option.none
  | l :: rest =>
      match ciMatchLit l cs with
      | Option.some r => Option.some r
      | Option.none => matchLits rest cs

/-- Match `(\d+(?:\.\d+)?)\s*(?:unit alternation)` at one position.  The
digit runs are taken maximally; for these patterns maximal munch
coincides with Python's greedy backtracking because no unit alternative
begins with a digit, a dot or whitespace.  Returns the integer and
fractional digit groups, the matched unit, and the remainder. -/
def matchNumUnit (units : List (List Char)) (cs : List Char) :
    Option ((List Char × List Char) × List Char × List Char) :=
  let (ip, r1) := spanDigits cs
  if ip.isEmpty then Option.none
  else
    let (fp, r2) : List Char × List Char :=
      match r1 with
      | '.' :: t =>
          let p := spanDigits t
          if p.1.isEmpty then ([], r1) else (p.1, p.2)
      | _ => ([], r1)
    let r3 := r2.dropWhile isWsC
    match matchLits units r3 with
    | Option.some (u, rest) => Option.some ((ip, fp), u, rest)
    | Option.none => Option.none

/-- The matched length of a number-with-unit occurrence starting exactly
at the head of `cs`. -/
def subNumUnitLen (units : List (List Char)) (cs : List Char) : Option Nat :=
  (matchNumUnit units cs).map (fun r => cs.length - r.2.2.length)

/-- Fuelled worker for `subAll` (structural recursion on the fuel; a
fuel of the input length suffices because every match consumes at least
one character, so the fuelled run never exhausts). -/
def subAllGo (m : List Char → Option Nat) : Nat → List Char → List Char
  | _, [] => []
  | 0, cs => cs
  | Nat.succ k, c :: t =>
    match m (c :: t) with
    | Option.some n =>
        if n == 0 then c :: subAllGo m k t
        else subAllGo m k (List.drop n (c :: t))
    | Option.none => c :: subAllGo m k t

/-- `re.sub(pattern, '', text)`: scan left to right, dropping each
match and continuing after it. -/
def subAll (m : List Char → Option Nat) (cs : List Char) : List Char :=
  subAllGo m cs.length cs

/-- The calorie-unit alternation `(?:卡|卡路里|kcal|cal)`, in source
order (`卡` before `卡路里`: Python alternation is ordered, so a match
never extends to `卡路里` when `卡` already matches). -/
def calorieUnits : List (List Char) :=
  ["卡".toList, "卡路里".toList, "kcal".toList, "cal".toList]

/-- The duration-unit alternation `(?:分钟|小时|min|hour)`. -/
def durationUnits : List (List Char) :=
  ["分钟".toList, "小时".toList, "min".toList, "hour".toList]

/-- The value of a matched `\d+(?:\.\d+)?` group as `float` would parse
it. -/
def numGroupValue (g : List Char × List Char) : Rat :=
  decimalRat (natOfDigits (g.1 ++ g.2) : Int) g.2.length 0

/-- `PDFParser._extract_date`: identical pattern table and dispatch as
`ExcelParser._parse_date` on strings (the source duplicates the
routine). -/
def extract_date (text : String) : Option String :=
  searchDatePatterns text

/-- `PDFParser._extract_calories`: leftmost `(\d+(?:\.\d+)?)\s*(?:卡|卡路里|kcal|cal)`. -/
def extract_calories (text : String) : Option Rat :=
  (searchL (matchNumUnit calorieUnits) text.toList).map (fun r => numGroupValue r.1)

/-- `PDFParser._extract_duration`: leftmost duration token; an hour unit
(`小时`/`hour` in the matched text) scales the value by 60. -/
def extract_duration (text : String) : Option Rat :=
  (searchL (matchNumUnit durationUnits) text.toList).map (fun r =>
    let n : Nat := natOfDigits (r.1.1 ++ r.1.2)
    let isHour := r.2.1 == "小时".toList || r.2.1 == "hour".toList
    decimalRat ((if isHour then n * 60 else n) : Int) r.1.2.length 0)

/-- The meal-time literal alternations of `PATTERNS['meal_time']`. -/
def mealLitsCJK : List (List Char) := ["早餐".toList, "午餐".toList, "晚餐".toList, "加餐".toList]

/-- The English meal-time alternation (matched case-insensitively). -/
def mealLitsEN : List (List Char) :=
  ["breakfast".toList, "lunch".toList, "dinner".toList, "snack".toList]

/-- The food-text cleanup of `_extract_meal_info`: strip, remove every
calorie mention, strip, drop leading `[:：\s]+`, strip. -/
def mealFoodCleanup (rest : List Char) : List Char :=
  let f1 := stripWsL rest
  let f2 := stripWsL (subAll (subNumUnitLen calorieUnits) f1)
  stripWsL (f2.dropWhile (fun c => c == ':' || c == '：' || isWsC c))

/-- One meal-time pattern of `_extract_meal_info`: leftmost label
occurrence, then the cleaned-up remainder of the line as the food text;
an empty food text makes this pattern fail (the source then tries the
next pattern). -/
def mealFromPattern (lits : List (List Char)) (line : List Char) : Option (String × String) :=
  match searchL (matchLits lits) line with
  | Option.some (g, rest) =>
      let food := mealFoodCleanup rest
      if food.isEmpty then Option.none
      else Option.some (String.mk g, String.mk food)
  | Option.none => Option.none

/-- `PDFParser._extract_meal_info`: the CJK label pattern first, then the
English one. -/
def extract_meal_info (line : String) : Option (String × String) :=
  match mealFromPattern mealLitsCJK line.toList with
  | Option.some r => Option.some r
  | Option.none => mealFromPattern mealLitsEN line.toList

/-- The labelled-exercise literals of `(运动|锻炼|训练)[:：]\s*(.+)`. -/
def exerciseLabelLits : List (List Char) := ["运动".toList, "锻炼".toList, "训练".toList]

/-- The bare exercise-name alternation `(跑步|游泳|瑜伽|力量训练|有氧运动)`. -/
def exerciseNameLits : List (List Char) :=
  ["跑步".toList, "游泳".toList, "瑜伽".toList, "力量训练".toList, "有氧运动".toList]

/-- Match `(运动|锻炼|训练)[:：]\s*(.+)` at one position, returning
group 2.  `\s*` is greedy but backtracks one character when `(.+)` would
otherwise be empty (so a remainder of only whitespace yields its last
character as group 2). -/
def exerciseLabelAt (cs : List Char) : Option (List Char) :=
  match matchLits exerciseLabelLits cs with
  | Option.some (_, rest) =>
      match rest with
      | c :: r =>
          if c == ':' || c == '：' then
            let afterWs := r.dropWhile isWsC
            if !afterWs.isEmpty then Option.some afterWs
            else if r.isEmpty then Option.none
            else Option.some (r.drop (r.length - 1))
          else Option.none
      | [] => Option.none
  | Option.none => Option.none

/-- `PDFParser._extract_exercise_info`: the labelled pattern first (name
is group 2), else a bare exercise-name literal (name is the literal);
in either case the whole line is scanned for a duration token. -/
def extract_exercise_info (line : String) : Option (String × Option Rat) :=
  let cs := line.toList
  let nameOpt : Option String :=
    match searchL exerciseLabelAt cs with
    | Option.some g2 => Option.some (pyStrip (String.mk g2))
    | Option.none =>
        match searchL (matchLits exerciseNameLits) cs with
        | Option.some (g, _) => Option.some (pyStrip (String.mk g))
        | Option.none => Option.none
  match nameOpt with
  | Option.some nm => Option.some (nm, extract_duration line)
  | Option.none => Option.none

/-- The accumulate-and-flush state of `_parse_text`. -/
structure PTState where
  data : List Row
  current_item : Row
  current_date : Option String

/-- One line of the `_parse_text` loop. -/
def parse_text_step (st : PTState) (rawLine : String) : PTState :=
  let line := pyStrip rawLine
  if line == "" then st
  else
    match extract_date line with
    | Option.some d =>
        let flushed :=
          if !(st.current_item == ([] : Row)) && anyTruthy st.current_item then
            st.data ++ [st.current_item]
          else st.data
        { data := flushed
        , current_item := [(FieldKey.date, Value.str d)]
        , current_date := Option.some d }
    | Option.none =>
      match st.current_date with
      | Option.none => st
      | Option.some cd =>
        match extract_meal_info line with
        | Option.some (mt, fd) =>
            let conflict := !(st.current_item == ([] : Row))
              && st.current_item.any (fun p => !(p.1 == FieldKey.date))
            let data2 := if conflict then st.data ++ [st.current_item] else st.data
            let base : Row :=
              if conflict then [(FieldKey.date, Value.str cd)] else st.current_item
            { data := data2
            , current_item :=
                rowSet (rowSet base FieldKey.meal_time (Value.str mt)) FieldKey.food (Value.str fd)
            , current_date := st.current_date }
        | Option.none =>
          match extract_exercise_info line with
          | Option.some (nm, dur) =>
              let conflict := !(st.current_item == ([] : Row))
                && st.current_item.any (fun p => !(p.1 == FieldKey.date))
              let data2 := if conflict then st.data ++ [st.current_item] else st.data
              let base : Row :=
                if conflict then [(FieldKey.date, Value.str cd)] else st.current_item
              let withEx := rowSet base FieldKey.exercise (Value.str nm)
              { data := data2
              , current_item :=
                  match dur with
                  | Option.some q => rowSet withEx FieldKey.duration (Value.num q)
                  | Option.none => withEx
              , current_date := st.current_date }
          | Option.none =>
              match extract_calories line with
              | Option.some q =>
                  if !(q == 0) && (rowGet st.current_item FieldKey.calories).isNone then
                    { st with current_item := rowSet st.current_item FieldKey.calories (Value.num q) }
                  else st
              | Option.none => st

/-- Worker for `splitNl`: split at every newline, keeping empty
pieces. -/
def splitNlGo : List Char → List Char → List String
  | [], acc => [String.mk acc.reverse]
  | '\n' :: t, acc => String.mk acc.reverse :: splitNlGo t []
  | c :: t, acc => splitNlGo t (c :: acc)

/-- Python `text.split('\n')`. -/
def splitNl (text : String) : List String := splitNlGo text.toList []

/-- `PDFParser._parse_text`: run the line loop, then flush the final
accumulating record when it has a truthy value. -/
def parse_text (text : String) : List Row :=
  let fin := (splitNl text).foldl parse_text_step
    { data := [], current_item := [], current_date := Option.none }
  if !(fin.current_item == ([] : Row)) && anyTruthy fin.current_item then
    fin.data ++ [fin.current_item]
  else fin.data

end PDFParser

namespace PDFParser

/-- Worker for `collapseWsL`: the flag records whether the previous
character belonged to a whitespace run already emitted as one space. -/
def collapseWsGo : Bool → List Char → List Char
  | _, [] => []
  | prevWs, c :: t =>
      if isWsC c then
        if prevWs then collapseWsGo true t else ' ' :: collapseWsGo true t
      else c :: collapseWsGo false t

/-- `re.sub(r'\s+', ' ', s)`: collapse every whitespace run to a single
space. -/
def collapseWsL (cs : List Char) : List Char := collapseWsGo false cs

/-- `PDFParser._parse_date` on a table cell: falsy is absent, otherwise
the stringified value goes through the shared date-pattern search. -/
def parse_date (v : Value) : Option String :=
  if pyTruthy v = false then Option.none
  else extract_date (pyStrV v)

/-- Match a bare `\d+(?:\.\d+)?` at one position (the `re.findall`
pattern of `_parse_number`). -/
def matchNum (cs : List Char) : Option (List Char × List Char) :=
  let (ip, r1) := spanDigits cs
  if ip.isEmpty then Option.none
  else
    match r1 with
    | '.' :: t =>
        let p := spanDigits t
        if p.1.isEmpty then Option.some (ip, []) else Option.some (ip, p.1)
    | _ => Option.some (ip, [])

/-- `PDFParser._parse_number`: falsy is absent; otherwise the first
number found in the stringified value (leftmost match of
`re.findall(r'\d+(?:\.\d+)?', ...)`), parsed as `float`. -/
def parse_number (v : Value) : Option Rat :=
  if pyTruthy v = false then Option.none
  else (searchL matchNum (pyStrV v).toList).map numGroupValue

/-- `PDFParser._clean_text`: falsy is absent; otherwise collapse
whitespace runs and strip; an empty result is absent. -/
def clean_text (v : Value) : Option String :=
  if pyTruthy v = false then Option.none
  else
    let cleaned := String.mk (stripWsL (collapseWsL (pyStrV v).toList))
    if cleaned == "" then Option.none else Option.some cleaned

/-- `PDFParser.COLUMN_KEYWORDS`, in dict insertion order (all keywords
are already lowercase in the source, which is why `_map_table_columns`
does not lowercase them before the containment test). -/
def COLUMN_KEYWORDS : List (FieldKey × List String) :=
  [ (FieldKey.date, ["日期", "date", "时间"])
  , (FieldKey.meal_time, ["餐次", "meal", "用餐"])
  , (FieldKey.food, ["食物", "food", "菜品"])
  , (FieldKey.calories, ["热量", "calories", "kcal"])
  , (FieldKey.exercise, ["运动", "exercise", "锻炼"])
  , (FieldKey.duration, ["时长", "duration", "分钟"])
  , (FieldKey.notes, ["备注", "notes", "说明"]) ]

/-- The first field whose keyword list has a member contained in the
lowercased header string. -/
def findFieldFor (headerLower : String) : Option FieldKey :=
  (COLUMN_KEYWORDS.find? (fun p =>
    p.2.any (fun kw => containsSub kw.toList headerLower.toList))).map (fun p => p.1)

/-- `PDFParser._map_table_columns`: walk the header cells (0-based),
skip falsy headers, bind the first matching field of each header to its
column index (later assignments overwrite). -/
def map_table_columns (headers : List Value) : FieldKey → Option Nat :=
  (enumFrom 0 headers).foldl
    (fun m p =>
      if pyTruthy p.2 then
        match findFieldFor (lowerStr (pyStrV p.2)) with
        | Option.some f => ExcelParser.colUpdate m f p.1
        | Option.none => m
      else m)
    (fun _ => Option.none)

/-- The canonical field order used when materialising a PDF table row
(dict iteration order does not affect dict contents). -/
def pdfFields : List FieldKey :=
  [ FieldKey.date, FieldKey.meal_time, FieldKey.food, FieldKey.calories
  , FieldKey.exercise, FieldKey.duration, FieldKey.notes ]

/-- `PDFParser._extract_table_row`: read every mapped column whose index
is inside the row, coercing by field kind. -/
def extract_table_row (row : List Value) (cols : FieldKey → Option Nat) : Row :=
  pdfFields.filterMap (fun f =>
    match cols f with
    | Option.some c =>
        if c < row.length then
          let cell := (List.get? row c).getD Value.none
          match f with
          | FieldKey.date =>
              Option.some (f, match parse_date cell with
                | Option.some s => Value.str s
                | Option.none => Value.none)
          | FieldKey.calories =>
              Option.some (f, match parse_number cell with
                | Option.some q => Value.num q
                | Option.none => Value.none)
          | FieldKey.duration =>
              Option.some (f, match parse_number cell with
                | Option.some q => Value.num q
                | Option.none => Value.none)
          | _ =>
              Option.some (f, match clean_text cell with
                | Option.some s => Value.str s
                | Option.none => Value.none)
        else Option.none
    | Option.none => Option.none)

/-- `PDFParser._process_table`: tables with fewer than two rows are
skipped; the first row is the header; data rows that are empty or all
falsy are skipped, as are extracted dicts with no truthy value. -/
def process_table (table : List (List Value)) : List Row :=
  if table.length < 2 then []
  else
    let headers := (List.head? table).getD []
    let cols := map_table_columns headers
    (table.drop 1).filterMap (fun row =>
      if row.isEmpty || row.all (fun cell => !(pyTruthy cell)) then Option.none
      else
        let rd := extract_table_row row cols
        if !(rd == ([] : Row)) && anyTruthy rd then Option.some rd else Option.none)

/-- One page of the document as `pdfplumber` presents it: the detected
tables (each a grid of cell values) and the extracted text
(`Option.none` models `extract_text()` returning `None`). -/
structure Page where
  tables : List (List (List Value))
  text : Option String

/-- One iteration of the `parse_file` page loop: extend the data with
each detected table's records (when any tables were detected), then —
unconditionally — with the line-based records of the page text whenever
that text is truthy. -/
def parse_file_step (data : List Row) (page : Page) : List Row :=
  let d1 :=
    if !page.tables.isEmpty then
      data ++ (page.tables.map process_table).flatten
    else data
  match page.text with
  | Option.some t => if !(t == "") then d1 ++ parse_text t else d1
  | Option.none => d1

/-- `PDFParser.parse_file` after a successful open. -/
def parse_file (pages : List Page) : List Row :=
  pages.foldl parse_file_step []

end PDFParser

/-! ## FileValidator (`file_validator.py`) -/

namespace FileValidator

/-- The observable state of the file under validation and of the host
system, as `validate_file` consults it: existence, regular-file flag,
size, the first eight bytes, availability of the optional `python-magic`
dependency, the MIME sniff outcome (`Option.none` models the sniff
raising, which the source swallows), readability and the execute
permission bit. -/
structure FileInfo where
  path : String
  pathExists : Bool
  isFile : Bool
  size : Nat
  header : List Nat
  hasMagicLib : Bool
  mimeSniff : Option String
  readable : Bool
  executable : Bool

/-- `MAX_FILE_SIZE` (10 MiB). -/
def MAX_FILE_SIZE : Nat := 10 * 1024 * 1024

/-- `MIN_FILE_SIZE`. -/
def MIN_FILE_SIZE : Nat := 100

/-- The supported type keys, in dict insertion order. -/
def typeKeys : List String := ["excel", "pdf"]

/-- `SUPPORTED_TYPES[*]['extensions']`. -/
def extensionsFor (t : String) : List String :=
  if t == "excel" then [".xlsx", ".xls"]
  else if t == "pdf" then [".pdf"]
  else []

/-- `SUPPORTED_TYPES[*]['mime_types']`. -/
def mimeTypesFor (t : String) : List String :=
  if t == "excel" then
    [ "application/vnd.openxmlformats-officedocument.spreadsheetml.sheet"
    , "application/vnd.ms-excel" ]
  else if t == "pdf" then ["application/pdf"]
  else []

/-- `SUPPORTED_TYPES[*]['magic_numbers']` (byte prefixes). -/
def magicNumbersFor (t : String) : List (List Nat) :=
  if t == "excel" then
    [ [0x50, 0x4B, 0x03, 0x04]
    , [0xd0, 0xcf, 0x11, 0xe0, 0xa1, 0xb1, 0x1a, 0xe1] ]
  else if t == "pdf" then [[0x25, 0x50, 0x44, 0x46]]
  else []

/-- `bytes.startswith` on byte lists. -/
def bytesPrefix : List Nat → List Nat → Bool
  | [], _ => true
  | _ :: _, [] => false
  | a :: as, b :: bs => a == b && bytesPrefix as bs

/-- `pathlib.Path(p).suffix`: the extension of the final path component,
empty for names without an interior dot or with only a trailing dot. -/
def pathSuffix (p : String) : String :=
  let nm := ((p.toList.reverse.takeWhile (fun c => !(c == '/'))).reverse)
  let rev := nm.reverse
  let ext := rev.takeWhile (fun c => !(c == '.'))
  let rest := rev.dropWhile (fun c => !(c == '.'))
  match rest with
  | '.' :: pre =>
      if pre.isEmpty || ext.isEmpty then ""
      else String.mk ('.' :: ext.reverse)
  | _ => ""

/-- `FileValidator._detect_type_by_extension`. -/
def detect_type_by_extension (ext : String) : Option String :=
  typeKeys.find? (fun t => (extensionsFor t).contains ext)

/-- `FileValidator._validate_magic_number`: the first eight bytes start
with one of the expected type's magic prefixes (the read itself is
assumed not to raise — the file exists and is readable in every state
the claims exercise). -/
def validate_magic_number (fi : FileInfo) (expected_type : String) : Bool :=
  (magicNumbersFor expected_type).any (fun m => bytesPrefix m (fi.header.take 8))

/-- `FileValidator._validate_mime_type`. -/
def validate_mime_type (mime_type : String) (expected_type : String) : Bool :=
  (mimeTypesFor expected_type).contains mime_type

/-- The dangerous path substrings of `_security_check`, in source
order. -/
def dangerousChars : List String := ["..", "~", "$", "`", "|", ";", "&"]

/-- `FileValidator._security_check`. -/
def security_check (fi : FileInfo) : Bool × Option String :=
  match dangerousChars.find? (fun c => containsSubStr c fi.path) with
  | Option.some c => (false, Option.some ("文件路径包含危险字符: " ++ c))
  | Option.none =>
      if !fi.readable then (false, Option.some "文件不可读")
      else if fi.executable then (false, Option.some "文件具有可执行权限，可能不安全")
      else (true, Option.none)

/-- `FileValidator.validate_file` (with the default `max_size`): the
check sequence of the source — existence, regular file, minimum and
maximum size, extension table, magic number, the optional MIME
cross-check (which rejects on a successful mismatching sniff and is
skipped when the library is unavailable or the sniff raises), and the
security checks. -/
def validate_file (fi : FileInfo) : Bool × Option String × Option String :=
  if !fi.pathExists then (false, Option.none, Option.some ("文件不存在: " ++ fi.path))
  else if !fi.isFile then (false, Option.none, Option.some ("不是有效的文件: " ++ fi.path))
  else if fi.size < MIN_FILE_SIZE then
    (false, Option.none, Option.some ("文件太小: " ++ toString fi.size
      ++ " bytes (最小 " ++ toString MIN_FILE_SIZE ++ " bytes)"))
  else if fi.size > MAX_FILE_SIZE then
    (false, Option.none, Option.some ("文件太大: " ++ toString fi.size
      ++ " bytes (最大 " ++ toString MAX_FILE_SIZE ++ " bytes)"))
  else
    let file_ext := lowerStr (pathSuffix fi.path)
    match detect_type_by_extension file_ext with
    | Option.none => (false, Option.none, Option.some ("不支持的文件扩展名: " ++ file_ext))
    | Option.some detected_type =>
        if !(validate_magic_number fi detected_type) then
          (false, Option.none, Option.some ("文件内容与扩展名不匹配: " ++ file_ext))
        else
          let mimeVerdict : Option String :=
            if fi.hasMagicLib then
              match fi.mimeSniff with
              | Option.some mime_type =>
                  if !(validate_mime_type mime_type detected_type) then
                    Option.some ("MIME 类型不匹配: " ++ mime_type)
                  else Option.none
              | Option.none => Option.none
            else Option.none
          match mimeVerdict with
          | Option.some msg => (false, Option.none, Option.some msg)
          | Option.none =>
              match security_check fi with
              | (false, err) => (false, Option.none, err)
              | (true, _) => (true, Option.some detected_type, Option.none)

end FileValidator

/-! ## Derived notions used by the theorems -/

/-- The looked-up value of `f` is absent or a string — exactly the rows
on which `row.get(f, '').strip()` cannot raise. -/
def strOrAbsent (row : Row) (f : FieldKey) : Bool :=
  match rowGet row f with
  | Option.none => true
  | Option.some (Value.str _) => true
  | Option.some _ => false

/-- The value `row.get(f, '').strip()` evaluates to on a non-raising
row. -/
def strippedGet (row : Row) (f : FieldKey) : String :=
  match rowGetD row f (Value.str "") with
  | Value.str s => pyStrip s
  | _ => ""

/-- The records one page contributes to `PDFParser.parse_file`: the
table records (when tables were detected) followed by the line-based
text records (whenever the page text is truthy, independent of the
tables). -/
def pageRecords (page : PDFParser.Page) : List Row :=
  (if !page.tables.isEmpty then
      (page.tables.map PDFParser.process_table).flatten
    else [])
  ++ (match page.text with
      | Option.some t => if !(t == "") then PDFParser.parse_text t else []
      | Option.none => [])

/-- The calories precondition for an `InvalidValue` error: the key is
present, bound to a non-`None` value that is not a number within
`[0, 10000]`. -/
def calBad (row : Row) : Bool :=
  match rowGet row FieldKey.calories with
  | Option.some v =>
      !(v == Value.none)
        && !(DataValidator.is_valid_number v (Option.some 0) (Option.some 10000))
  | Option.none => false

/-- An error is an `InvalidValue` naming field `calories`. -/
def calInvalidP (e : DataValidator.VError) : Bool :=
  e.error_type == DataValidator.VErrorType.invalid_value && e.field == "calories"

/-- The value shapes the tabular extractor actually produces for each
mapped field: `None` for an empty or unparseable cell, otherwise a
`strftime`-formatted date string for `date`, a number for
`calories`/`duration`, and a whitespace-trimmed (possibly empty) string
for the text fields. -/
def excelFieldTyped (f : FieldKey) (v : Value) : Prop :=
  match f with
  | FieldKey.date => v = Value.none ∨ ∃ y m d, v = Value.str (fmtDate y m d)
  | FieldKey.calories => v = Value.none ∨ ∃ q, v = Value.num q
  | FieldKey.duration => v = Value.none ∨ ∃ q, v = Value.num q
  | _ => v = Value.none ∨ ∃ s, v = Value.str s ∧ pyStrip s = s

/-! ## Helper lemmas -/

theorem dropWhile_cons_false {p : Char → Bool} {l : List Char} {h : Char} {t : List Char}
    (hd : List.dropWhile p l = h :: t) : p h = false := by
  induction l with
  | nil => simp [List.dropWhile] at hd
  | cons a l ih =>
      rw [List.dropWhile_cons] at hd
      by_cases hp : p a = true
      · rw [if_pos hp] at hd; exact ih hd
      · rw [if_neg hp] at hd
        cases hd
        simpa using hp

theorem stripWsL_as_rdropWhile (l : List Char) :
    stripWsL l = List.rdropWhile isWsC (List.dropWhile isWsC l) := by
  simp [stripWsL, List.rdropWhile]

theorem stripWsL_idem (cs : List Char) : stripWsL (stripWsL cs) = stripWsL cs := by
  rw [stripWsL_as_rdropWhile, stripWsL_as_rdropWhile]
  have h1 : List.dropWhile isWsC (List.rdropWhile isWsC (List.dropWhile isWsC cs))
      = List.rdropWhile isWsC (List.dropWhile isWsC cs) := by
    cases hrd : List.rdropWhile isWsC (List.dropWhile isWsC cs) with
    | nil => simp [List.dropWhile]
    | cons h tl =>
        obtain ⟨t, ht⟩ := List.rdropWhile_prefix isWsC (List.dropWhile isWsC cs)
        rw [hrd] at ht
        have hhead : isWsC h = false := by
          apply dropWhile_cons_false (l := cs)
          rw [← ht]
          rfl
        rw [List.dropWhile_cons, hhead]
        simp
  rw [h1, List.rdropWhile_idempotent]

theorem pyStrip_idem (s : String) : pyStrip (pyStrip s) = pyStrip s := by
  simp [pyStrip, stripWsL_idem]

theorem mkDate_shape {y m d : Nat} {s : String} (h : mkDate y m d = Option.some s) :
    s = fmtDate y m d := by
  unfold mkDate at h
  split at h
  · exact (Option.some.inj h).symm
  · exact absurd h (by simp)

theorem dateFromGroups_shape {g : List Char × List Char × List Char} {s : String}
    (h : dateFromGroups g = Option.some s) :
    ∃ y m d, s = fmtDate y m d := by
  unfold dateFromGroups at h
  refine ⟨_, _, _, mkDate_shape h⟩

theorem searchDatePatterns_shape {t : String} {s : String}
    (h : searchDatePatterns t = Option.some s) : ∃ y m d, s = fmtDate y m d := by
  unfold searchDatePatterns at h
  cases h1 : (searchL matchYMD t.toList).bind dateFromGroups with
  | some r =>
      rw [h1] at h
      injection h with h
      subst h
      obtain ⟨g, _, hg⟩ := Option.bind_eq_some.mp h1
      exact dateFromGroups_shape hg
  | none =>
      rw [h1] at h
      cases h2 : (searchL matchMDY t.toList).bind dateFromGroups with
      | some r =>
          rw [h2] at h
          injection h with h
          subst h
          obtain ⟨g, _, hg⟩ := Option.bind_eq_some.mp h2
          exact dateFromGroups_shape hg
      | none =>
          rw [h2] at h
          obtain ⟨g, _, hg⟩ := Option.bind_eq_some.mp h
          exact dateFromGroups_shape hg

theorem parse_date_shape {v : Value} {s : String}
    (h : ExcelParser.parse_date v = Option.some s) : ∃ y m d, s = fmtDate y m d := by
  unfold ExcelParser.parse_date at h
  split at h
  · exact absurd h (by simp)
  · cases v with
    | none => exact absurd h (by simp)
    | str s0 => exact searchDatePatterns_shape h
    | num q => exact absurd h (by simp)
    | pydate y m d =>
        injection h with h
        exact ⟨y, m, d, h.symm⟩

theorem parse_text_shape {v : Value} {s : String}
    (h : ExcelParser.parse_text v = Option.some s) : pyStrip s = s := by
  unfold ExcelParser.parse_text at h
  split at h
  · exact absurd h (by simp)
  · injection h with h
    rw [← h, pyStrip_idem]

theorem parse_file_foldl_eq (pages : List PDFParser.Page) (acc : List Row) :
    pages.foldl PDFParser.parse_file_step acc = acc ++ (pages.map pageRecords).flatten := by
  induction pages generalizing acc with
  | nil => simp
  | cons p t ih =>
      rw [List.foldl_cons, ih]
      have hstep : PDFParser.parse_file_step acc p = acc ++ pageRecords p := by
        unfold PDFParser.parse_file_step pageRecords
        cases hx : p.text with
        | none => split <;> simp
        | some t0 =>
            split <;> split <;> (try split) <;> simp [List.append_assoc]
      rw [hstep]
      simp [List.append_assoc]

/-! ## Claims -/

/-- **C1 (counterexample).**  A one-page document with a detected table
and page text: the table is non-empty, yet `parse_file` appends a second
record extracted from the page text by the line-based parser, so the
page's output does not come from table extraction alone. -/
theorem C1_counterexample :
    (PDFParser.Page.mk
        [[[Value.str "日期", Value.str "食物"], [Value.str "2024-01-01", Value.str "鸡胸肉"]]]
        (Option.some "2024-03-01")).tables ≠ []
    ∧ PDFParser.parse_file
        [PDFParser.Page.mk
          [[[Value.str "日期", Value.str "食物"], [Value.str "2024-01-01", Value.str "鸡胸肉"]]]
          (Option.some "2024-03-01")]
      = [ [(FieldKey.date, Value.str "2024-01-01"), (FieldKey.food, Value.str "鸡胸肉")]
        , [(FieldKey.date, Value.str "2024-03-01")] ]
    ∧ ((PDFParser.Page.mk
          [[[Value.str "日期", Value.str "食物"], [Value.str "2024-01-01", Value.str "鸡胸肉"]]]
          (Option.some "2024-03-01")).tables.map PDFParser.process_table).flatten
      = [ [(FieldKey.date, Value.str "2024-01-01"), (FieldKey.food, Value.str "鸡胸肉")] ] := by
  refine ⟨by decide, by decide, by decide⟩

/-- **C1 (amended).**  `PDFParser.parse_file` applies line-based text
extraction to every page whose extracted text is truthy, regardless of
whether tables were detected on the page: the output is, per page, the
table-extraction records (when tables were detected) followed by the
line-based records of the page text — so a page with tables can
contribute records from both extractions. -/
theorem C1_line_extraction_every_page (pages : List PDFParser.Page) :
    PDFParser.parse_file pages = (pages.map pageRecords).flatten := by
  unfold PDFParser.parse_file
  rw [parse_file_foldl_eq]
  simp

/-- **C2 (counterexample).**  Two worksheets whose parses return row
dicts binding a canonical key to `None` (an empty `date` cell) and to
the empty string (a whitespace-only `food` cell) — the claim that a key
is never bound to null or to an empty string fails. -/
theorem C2_counterexample :
    ExcelParser.parse [[Value.str "date", Value.str "food"], [Value.none, Value.str "apple"]]
      = [[(FieldKey.date, Value.none), (FieldKey.food, Value.str "apple")]]
    ∧ ExcelParser.parse [[Value.str "date", Value.str "food"], [Value.str "2024-01-01", Value.str "  "]]
      = [[(FieldKey.date, Value.str "2024-01-01"), (FieldKey.food, Value.str "")]] := by
  refine ⟨by decide, by decide⟩

/-- **C2 (amended).**  Every row dict returned by the tabular
extractor's parse has at least one truthy value, and binds every one of
its keys either to `None` (empty or unparseable cell) or to a
correctly-typed value: a `strftime`-formatted date string for `date`, a
number for `calories`/`duration`, and a whitespace-trimmed — possibly
empty — string for the text fields.  (Keys of mapped fields are always
present, bound to `None` rather than omitted, contrary to the original
claim.) -/
theorem C2_extracted_row_typing (ws : ExcelParser.Worksheet) (row : Row)
    (hmem : row ∈ ExcelParser.parse ws) :
    anyTruthy row = true ∧ ∀ p ∈ row, excelFieldTyped p.1 p.2 := by
  unfold ExcelParser.parse ExcelParser.extract_data at hmem
  obtain ⟨r, _, hr⟩ := List.mem_filterMap.mp hmem
  by_cases hc :
      (!(ExcelParser.extract_row ws (ExcelParser.identify_columns ws) r == ([] : Row))
        && anyTruthy (ExcelParser.extract_row ws (ExcelParser.identify_columns ws) r)) = true
  · rw [if_pos hc] at hr
    injection hr with hr
    subst hr
    constructor
    · exact (Bool.and_eq_true_iff.mp hc).2
    · intro p hp
      unfold ExcelParser.extract_row at hp
      obtain ⟨f, _, hf⟩ := List.mem_filterMap.mp hp
      cases hcols : (ExcelParser.identify_columns ws).cols f with
      | none => rw [hcols] at hf; exact absurd hf (by simp)
      | some c =>
          rw [hcols] at hf
          injection hf with hf
          subst hf
          show excelFieldTyped f (ExcelParser.convertCell f _)
          set v := ExcelParser.cellAt ws r c with hv
          clear_value v
          have hdate : excelFieldTyped FieldKey.date (ExcelParser.convertCell FieldKey.date v) := by
            unfold ExcelParser.convertCell excelFieldTyped
            cases hd : ExcelParser.parse_date v with
            | none => exact Or.inl rfl
            | some s =>
                obtain ⟨y, m, d, hs⟩ := parse_date_shape hd
                exact Or.inr ⟨y, m, d, by rw [hs]⟩
          have hnum : ∀ g, g = FieldKey.calories ∨ g = FieldKey.duration →
              excelFieldTyped g (ExcelParser.convertCell g v) := by
            intro g hg
            rcases hg with hg | hg <;> subst hg <;>
              unfold ExcelParser.convertCell excelFieldTyped <;>
              cases hn : ExcelParser.parse_number v with
              | none => exact Or.inl rfl
              | some q => exact Or.inr ⟨q, rfl⟩
          have htext : ∀ s, ExcelParser.parse_text v = Option.some s →
              (Value.str s = Value.none ∨ ∃ s0, Value.str s = Value.str s0 ∧ pyStrip s0 = s0) :=
            fun s ht => Or.inr ⟨s, rfl, parse_text_shape ht⟩
          cases f
          · exact hdate
          all_goals
            first
            | exact hnum _ (Or.inl rfl)
            | exact hnum _ (Or.inr rfl)
            | · unfold ExcelParser.convertCell excelFieldTyped
                cases ht : ExcelParser.parse_text v with
                | none => exact Or.inl rfl
                | some s => exact htext s ht
  · rw [if_neg hc] at hr
    exact absurd hr (by simp)

/-- **C3.**  The Value Normalizer's date parser maps each of
`"2024-12-02"`, `"12/02/2024"` and `"2024年12月2日"` to the canonical
`"2024-12-02"`, identically in the tabular extractor's `_parse_date` and
the semi-structured extractor's `_extract_date`; the patterns are tried
in order (the `YYYY-MM-DD` pattern wins even when an `MM/DD/YYYY` match
occurs earlier in the string), and an invalid calendar match
(`2024-13-45`) falls through to the next pattern, or to `None` when no
pattern forms a valid date (`2024-02-30`). -/
theorem C3_date_normalization :
    ExcelParser.parse_date (Value.str "2024-12-02") = Option.some "2024-12-02"
    ∧ ExcelParser.parse_date (Value.str "12/02/2024") = Option.some "2024-12-02"
    ∧ ExcelParser.parse_date (Value.str "2024年12月2日") = Option.some "2024-12-02"
    ∧ PDFParser.extract_date "2024-12-02" = Option.some "2024-12-02"
    ∧ PDFParser.extract_date "12/02/2024" = Option.some "2024-12-02"
    ∧ PDFParser.extract_date "2024年12月2日" = Option.some "2024-12-02"
    ∧ ExcelParser.parse_date (Value.str "01/02/2024 2024-05-06") = Option.some "2024-05-06"
    ∧ ExcelParser.parse_date (Value.str "2024-13-45 12/05/2024") = Option.some "2024-12-05"
    ∧ ExcelParser.parse_date (Value.str "2024-02-30") = Option.none := by
  refine ⟨by decide, by decide, by decide, by decide, by decide, by decide, by decide,
    by decide, by decide⟩

/-- **C5.**  For every kind string, validating the empty row list
returns the single `EmptyData` error on field `data` with no warnings
(the per-row loop is never entered: the result is the short-circuit
record), and `is_valid` is false. -/
theorem C5_empty_batch (kind : String) :
    DataValidator.validate_parsed_data [] kind
      = DataValidator.ValidationResult.mk [DataValidator.emptyDataError] []
    ∧ DataValidator.is_valid (DataValidator.validate_parsed_data [] kind) = false
    ∧ DataValidator.emptyDataError.error_type = DataValidator.VErrorType.empty_data := by
  exact ⟨rfl, rfl, rfl⟩

/-- **C9 (counterexample).**  The numeric normalizer does not map
`"12-34"` to `-1234`: the stripped string `"12-34"` is not a valid float
literal, so the value normalizes to absent; native `0` is also not
passed through (it is falsy and normalizes to absent). -/
theorem C9_counterexample :
    ExcelParser.parse_number (Value.str "12-34") = Option.none
    ∧ ExcelParser.parse_number (Value.num 0) = Option.none := by
  refine ⟨by decide, by decide⟩

/-- **C9 (amended).**  The numeric normalizer passes non-zero native
numbers through unchanged, while native `0` (falsy) normalizes to
absent; for a truthy string it strips every character that is not a
digit, `.` or `-` and parses the remainder with `float()`: `"1,234"`
normalizes to `1234`, while `"12-34"` (interior minus sign) and `"abc"`
are unparseable and normalize to absent. -/
theorem C9_number_normalization :
    (∀ q : Rat, q ≠ 0 → ExcelParser.parse_number (Value.num q) = Option.some q)
    ∧ ExcelParser.parse_number (Value.num 0) = Option.none
    ∧ ExcelParser.parse_number (Value.str "1,234") = Option.some 1234
    ∧ ExcelParser.parse_number (Value.str "12-34") = Option.none
    ∧ ExcelParser.parse_number (Value.str "abc") = Option.none
    ∧ ∀ s : String, s ≠ "" →
        ExcelParser.parse_number (Value.str s)
          = floatOfChars (s.toList.filter ExcelParser.keepNumChar) := by
  refine ⟨?_, by decide, by decide, by decide, by decide, ?_⟩
  · intro q hq
    have hb : (q == 0) = false := by
      simp [hq]
    simp [ExcelParser.parse_number, pyTruthy, hb]
  · intro s hs
    have hb : (s == "") = false := by
      simp [hs]
    simp [ExcelParser.parse_number, pyTruthy, hb]

/-- Witness for C9: the theorem applied at the native number `7` and
the string `"1,234"`. -/
theorem C9_number_normalization_witness :
    ExcelParser.parse_number (Value.num 7) = Option.some 7
    ∧ ExcelParser.parse_number (Value.str "1,234")
        = floatOfChars ("1,234".toList.filter ExcelParser.keepNumChar) := by
  exact ⟨C9_number_normalization.1 7 (by norm_num),
    (C9_number_normalization.2.2.2.2.2 "1,234" (by decide))⟩

/-- **C10 (counterexample).**  `convert_to_plan_items` is not total on
the extractors' output domain: a row binding `type` to `None` — which
the tabular extractor produces for a mapped-but-empty type cell — makes
`row.get('type', '').strip()` raise `AttributeError`. -/
theorem C10_counterexample :
    convert_to_plan_items [[(FieldKey.ftype, Value.none), (FieldKey.food, Value.str "x")]]
      = Except.error "AttributeError" := by
  decide

/-- **C10 (amended).**  `convert_to_plan_items` returns a
`{meals, exercises}` result without raising precisely on batches in
which every row binds `type` and `name` (when present) to strings; a
`type` or `name` bound to `None` raises `AttributeError`. -/
theorem C10_converter_totality (rows : List Row)
    (h : ∀ row ∈ rows, strOrAbsent row FieldKey.ftype = true
          ∧ strOrAbsent row FieldKey.name = true) :
    ∃ out, convert_to_plan_items rows = Except.ok out := by
  have hrow : ∀ row ∈ rows, ∃ pr, convertRow row = Except.ok pr := by
    intro row hr
    obtain ⟨ht, hn⟩ := h row hr
    have hts : ∃ s, getStrip row FieldKey.ftype = Except.ok s := by
      unfold getStrip rowGetD
      unfold strOrAbsent at ht
      cases hg : rowGet row FieldKey.ftype with
      | none => exact ⟨pyStrip "", by simp [hg]⟩
      | some v =>
          rw [hg] at ht
          cases v <;> simp_all
    have hns : ∃ s, getStrip row FieldKey.name = Except.ok s := by
      unfold getStrip rowGetD
      unfold strOrAbsent at hn
      cases hg : rowGet row FieldKey.name with
      | none => exact ⟨pyStrip "", by simp [hg]⟩
      | some v =>
          rw [hg] at hn
          cases v <;> simp_all
    obtain ⟨ts, hts⟩ := hts
    obtain ⟨ns, hns⟩ := hns
    unfold convertRow
    rw [hts, hns]
    dsimp only
    split
    · split
      · exact ⟨_, rfl⟩
      · split
        · exact ⟨_, rfl⟩
        · exact ⟨_, rfl⟩
    · exact ⟨_, rfl⟩
  have hmap : ∃ ps, rows.mapM convertRow = Except.ok ps := by
    induction rows with
    | nil => exact ⟨[], rfl⟩
    | cons r t ih =>
        obtain ⟨pr, hpr⟩ := hrow r (by simp)
        obtain ⟨ps, hps⟩ := ih (fun row hm => h row (by simp [hm]))
          (fun row hm => hrow row (by simp [hm]))
        refine ⟨pr :: ps, ?_⟩
        rw [List.mapM_cons, hpr, hps]
        rfl
  obtain ⟨ps, hps⟩ := hmap
  unfold convert_to_plan_items
  rw [hps]
  exact ⟨_, rfl⟩

/-- Witness for C10: the theorem applied to a concrete legacy-layout
batch. -/
theorem C10_converter_totality_witness :
    ∃ out, convert_to_plan_items [[(FieldKey.food, Value.str "x")]] = Except.ok out := by
  exact C10_converter_totality [[(FieldKey.food, Value.str "x")]] (by decide)

/-- **C4.**  For every row, index and kind, the validator emits an
`InvalidValue` error naming field `calories` exactly when the `calories`
key is present, bound to a non-`None` value that is not a number within
`[0, 10000]` (not numeric, below 0, or above 10000); concretely, a
kind-`general` row with `calories = 15000` yields exactly one error —
an `InvalidValue` on field `calories` whose message states the
`0-10000` range — and a row with `calories = 500` yields none. -/
theorem C4_calories_validation :
    (∀ (row : Row) (idx : Nat) (kind : String),
      (DataValidator.validate_row row idx kind).1.countP calInvalidP
        = if calBad row then 1 else 0)
    ∧ (DataValidator.validate_parsed_data
        [[(FieldKey.calories, Value.num 15000)]] "general").errors.length = 1
    ∧ (DataValidator.validate_parsed_data
        [[(FieldKey.calories, Value.num 15000)]] "general").errors.countP
          (fun e => e.error_type == DataValidator.VErrorType.invalid_value
            && e.field == "calories" && containsSubStr "0-10000" e.message) = 1
    ∧ (DataValidator.validate_parsed_data
        [[(FieldKey.calories, Value.num 500)]] "general").errors = [] := by
  refine ⟨?_, by decide, by decide, by decide⟩
  intro row idx kind
  unfold DataValidator.validate_row
  rw [List.countP_append, List.countP_append, List.countP_append, List.countP_append]
  have hreq : (DataValidator.requiredErrors row idx kind).countP calInvalidP = 0 := by
    rw [List.countP_eq_zero]
    intro e he
    unfold DataValidator.requiredErrors at he
    cases hR : DataValidator.REQUIRED_FIELDS kind with
    | none => rw [hR] at he; simp at he
    | some fs =>
        rw [hR] at he
        obtain ⟨f, _, hf⟩ := List.mem_filterMap.mp he
        by_cases hcnd : pyTruthyO (rowGet row f) = true
        · rw [if_pos hcnd] at hf
          exact absurd hf (by simp)
        · rw [if_neg hcnd] at hf
          injection hf with hf
          subst hf
          simp [calInvalidP]
  have hdate : (DataValidator.dateErrors row idx).countP calInvalidP = 0 := by
    unfold DataValidator.dateErrors
    cases hg : rowGet row FieldKey.date with
    | none => simp
    | some v => dsimp only; split <;> rfl
  have hdur : (DataValidator.durationErrors row idx).countP calInvalidP = 0 := by
    unfold DataValidator.durationErrors
    cases hg : rowGet row FieldKey.duration with
    | none => simp
    | some v => dsimp only; split <;> rfl
  have htext : (DataValidator.textErrors row idx).countP calInvalidP = 0 := by
    rw [List.countP_eq_zero]
    intro e he
    unfold DataValidator.textErrors at he
    obtain ⟨f, hfm, hf⟩ := List.mem_filterMap.mp he
    have hfm' : f = FieldKey.food ∨ f = FieldKey.meal_time ∨ f = FieldKey.exercise
        ∨ f = FieldKey.name ∨ f = FieldKey.notes := by
      simpa [DataValidator.text_fields] using hfm
    cases hg : rowGet row f with
    | none => rw [hg] at hf; simp at hf
    | some v =>
        rw [hg] at hf
        dsimp only at hf
        by_cases hcnd : (pyTruthy v && !(DataValidator.is_valid_text v 500)) = true
        · rw [if_pos hcnd] at hf
          injection hf with hf
          subst hf
          rcases hfm' with rfl | rfl | rfl | rfl | rfl <;>
            simp [calInvalidP, fieldName]
        · rw [if_neg hcnd] at hf
          exact absurd hf (by simp)
  have hcal : (DataValidator.caloriesErrors row idx).countP calInvalidP
      = if calBad row then 1 else 0 := by
    unfold DataValidator.caloriesErrors calBad
    cases hg : rowGet row FieldKey.calories with
    | none => simp
    | some v =>
        dsimp only
        by_cases hc : (!(v == Value.none)
            && !(DataValidator.is_valid_number v (Option.some 0) (Option.some 10000))) = true
        · rw [if_pos hc, if_pos hc]
          rfl
        · rw [if_neg hc, if_neg hc]
          simp
  rw [hreq, hdate, hdur, htext, hcal]
  omega

theorem getStrip_of_strOrAbsent (row : Row) (f : FieldKey) (h : strOrAbsent row f = true) :
    getStrip row f = Except.ok (strippedGet row f) := by
  unfold strOrAbsent at h
  unfold getStrip strippedGet rowGetD
  cases hg : rowGet row f with
  | none => simp
  | some v =>
      rw [hg] at h
      cases v <;> simp_all

theorem convert_single (row : Row) (pr : List MealEntry × List ExerciseEntry)
    (h : convertRow row = Except.ok pr) :
    convert_to_plan_items [row] = Except.ok (PlanItems.mk pr.1 pr.2) := by
  unfold convert_to_plan_items
  rw [List.mapM_cons, h, List.mapM_nil]
  simp

theorem stringContains_iff_mem (l : List String) (s : String) :
    l.contains s = true ↔ s ∈ l := by
  rw [List.contains_iff_exists_mem_beq]
  constructor
  · rintro ⟨x, hx, hbeq⟩
    rw [eq_of_beq hbeq]
    exact hx
  · intro h
    exact ⟨s, h, by simp⟩

theorem mealSyn_not_exerciseSyn {s : String} (h : s ∈ mealTypeSynonyms) :
    s ∉ exerciseTypeSynonyms := by
  fin_cases h <;> decide

/-- **C6.**  The Plan Converter uses the explicit layout for a row
exactly when the stripped `type` and `name` values are both non-empty
strings (present and non-empty): a type in the meal synonym set emits
one MealEntry, a type in the exercise synonym set emits one
ExerciseEntry, and an unrecognized type emits nothing; otherwise, in the
legacy layout, a truthy `food` emits a MealEntry and — independently — a
truthy `exercise` emits an ExerciseEntry, so one row may yield both.  In
every emitted entry `calories`, `duration` and `calories_burned` are `0`
when the source key is absent. -/
theorem C6_layout_dispatch (row : Row)
    (ht : strOrAbsent row FieldKey.ftype = true)
    (hn : strOrAbsent row FieldKey.name = true) :
    ∃ ms es, convert_to_plan_items [row] = Except.ok (PlanItems.mk ms es)
      ∧ ((¬ strippedGet row FieldKey.ftype = "" ∧ ¬ strippedGet row FieldKey.name = "") →
          ((strippedGet row FieldKey.ftype ∈ mealTypeSynonyms →
              ms = [MealEntry.mk (rowGetD row FieldKey.date Value.none)
                      (rowGetD row FieldKey.meal_time (Value.str "未指定"))
                      (Value.str (strippedGet row FieldKey.name))
                      (rowGetD row FieldKey.calories (Value.num 0))
                      (rowGetD row FieldKey.notes Value.none)]
                ∧ es = [])
            ∧ (strippedGet row FieldKey.ftype ∈ exerciseTypeSynonyms →
                ms = [] ∧ es = [ExerciseEntry.mk (rowGetD row FieldKey.date Value.none)
                      (Value.str (strippedGet row FieldKey.name))
                      (rowGetD row FieldKey.duration (Value.num 0))
                      (rowGetD row FieldKey.calories (Value.num 0))
                      (rowGetD row FieldKey.notes Value.none)])
            ∧ (strippedGet row FieldKey.ftype ∉ mealTypeSynonyms →
                strippedGet row FieldKey.ftype ∉ exerciseTypeSynonyms →
                  ms = [] ∧ es = [])))
      ∧ ((strippedGet row FieldKey.ftype = "" ∨ strippedGet row FieldKey.name = "") →
          ms = (if pyTruthyO (rowGet row FieldKey.food) = true then
                  [MealEntry.mk (rowGetD row FieldKey.date Value.none)
                    (rowGetD row FieldKey.meal_time (Value.str "未指定"))
                    (rowGetD row FieldKey.food Value.none)
                    (rowGetD row FieldKey.calories (Value.num 0))
                    (rowGetD row FieldKey.notes Value.none)]
                else [])
            ∧ es = (if pyTruthyO (rowGet row FieldKey.exercise) = true then
                  [ExerciseEntry.mk (rowGetD row FieldKey.date Value.none)
                    (rowGetD row FieldKey.exercise Value.none)
                    (rowGetD row FieldKey.duration (Value.num 0))
                    (rowGetD row FieldKey.calories (Value.num 0))
                    (rowGetD row FieldKey.notes Value.none)]
                else []))
      ∧ (rowGet row FieldKey.calories = Option.none →
          (∀ m ∈ ms, m.calories = Value.num 0) ∧ (∀ e ∈ es, e.calories_burned = Value.num 0))
      ∧ (rowGet row FieldKey.duration = Option.none →
          ∀ e ∈ es, e.duration = Value.num 0) := by
  have hts := getStrip_of_strOrAbsent row FieldKey.ftype ht
  have hns := getStrip_of_strOrAbsent row FieldKey.name hn
  have hcal0 : rowGet row FieldKey.calories = Option.none →
      rowGetD row FieldKey.calories (Value.num 0) = Value.num 0 := by
    intro h0; unfold rowGetD; rw [h0]; rfl
  have hdur0 : rowGet row FieldKey.duration = Option.none →
      rowGetD row FieldKey.duration (Value.num 0) = Value.num 0 := by
    intro h0; unfold rowGetD; rw [h0]; rfl
  by_cases hexp : (¬ strippedGet row FieldKey.ftype = "" ∧ ¬ strippedGet row FieldKey.name = "")
  · have hb : (!(strippedGet row FieldKey.ftype == "")
        && !(strippedGet row FieldKey.name == "")) = true := by
      simp [hexp.1, hexp.2]
    by_cases hmeal : strippedGet row FieldKey.ftype ∈ mealTypeSynonyms
    · have hmb : mealTypeSynonyms.contains (strippedGet row FieldKey.ftype) = true :=
        (stringContains_iff_mem _ _).mpr hmeal
      have hcr : convertRow row = Except.ok
          ([MealEntry.mk (rowGetD row FieldKey.date Value.none)
              (rowGetD row FieldKey.meal_time (Value.str "未指定"))
              (Value.str (strippedGet row FieldKey.name))
              (rowGetD row FieldKey.calories (Value.num 0))
              (rowGetD row FieldKey.notes Value.none)], []) := by
        unfold convertRow
        rw [hts, hns]
        dsimp only
        rw [if_pos hb, if_pos hmb]
      refine ⟨_, _, convert_single row _ hcr, ?_, ?_, ?_, ?_⟩
      · intro _
        exact ⟨fun _ => ⟨rfl, rfl⟩,
          fun hex => absurd hex (mealSyn_not_exerciseSyn hmeal),
          fun hnm _ => absurd hmeal hnm⟩
      · intro hc; exact absurd hc (by simpa using hexp)
      · intro h0
        refine ⟨?_, ?_⟩
        · intro m hm
          simp only [List.mem_singleton] at hm
          subst hm
          exact hcal0 h0
        · intro e he
          simp at he
      · intro _ e he
        simp at he
    · by_cases hex : strippedGet row FieldKey.ftype ∈ exerciseTypeSynonyms
      · have hxb : exerciseTypeSynonyms.contains (strippedGet row FieldKey.ftype) = true :=
          (stringContains_iff_mem _ _).mpr hex
        have hmb : mealTypeSynonyms.contains (strippedGet row FieldKey.ftype) = false := by
          rw [Bool.eq_false_iff]
          intro hc
          exact hmeal ((stringContains_iff_mem _ _).mp hc)
        have hcr : convertRow row = Except.ok
            ([], [ExerciseEntry.mk (rowGetD row FieldKey.date Value.none)
                (Value.str (strippedGet row FieldKey.name))
                (rowGetD row FieldKey.duration (Value.num 0))
                (rowGetD row FieldKey.calories (Value.num 0))
                (rowGetD row FieldKey.notes Value.none)]) := by
          unfold convertRow
          rw [hts, hns]
          dsimp only
          rw [if_pos hb, if_neg (by rw [hmb]; decide), if_pos hxb]
        refine ⟨_, _, convert_single row _ hcr, ?_, ?_, ?_, ?_⟩
        · intro _
          refine ⟨fun hm => absurd hm hmeal, fun _ => ⟨rfl, rfl⟩, fun _ hx => absurd hex hx⟩
        · intro hc; exact absurd hc (by simpa using hexp)
        · intro h0
          refine ⟨fun m hm => by simp at hm, fun e he => ?_⟩
          simp only [List.mem_singleton] at he
          subst he
          exact hcal0 h0
        · intro h0 e he
          simp only [List.mem_singleton] at he
          subst he
          exact hdur0 h0
      · have hmb : mealTypeSynonyms.contains (strippedGet row FieldKey.ftype) = false := by
          rw [Bool.eq_false_iff]
          intro hc
          exact hmeal ((stringContains_iff_mem _ _).mp hc)
        have hxb : exerciseTypeSynonyms.contains (strippedGet row FieldKey.ftype) = false := by
          rw [Bool.eq_false_iff]
          intro hc
          exact hex ((stringContains_iff_mem _ _).mp hc)
        have hcr : convertRow row = Except.ok ([], []) := by
          unfold convertRow
          rw [hts, hns]
          dsimp only
          rw [if_pos hb, if_neg (by rw [hmb]; decide), if_neg (by rw [hxb]; decide)]
        refine ⟨_, _, convert_single row _ hcr, ?_, ?_, ?_, ?_⟩
        · intro _
          exact ⟨fun hm => absurd hm hmeal, fun hx => absurd hx hex, fun _ _ => ⟨rfl, rfl⟩⟩
        · intro hc; exact absurd hc (by simpa using hexp)
        · exact fun _ => ⟨fun m hm => by simp at hm, fun e he => by simp at he⟩
        · exact fun _ e he => by simp at he
  · have hb : (!(strippedGet row FieldKey.ftype == "")
        && !(strippedGet row FieldKey.name == "")) = false := by
      rcases not_and_or.mp hexp with h | h <;> simp [not_not.mp h]
    have hcr : convertRow row = Except.ok
        ( (if pyTruthyO (rowGet row FieldKey.food) = true then
            [MealEntry.mk (rowGetD row FieldKey.date Value.none)
              (rowGetD row FieldKey.meal_time (Value.str "未指定"))
              (rowGetD row FieldKey.food Value.none)
              (rowGetD row FieldKey.calories (Value.num 0))
              (rowGetD row FieldKey.notes Value.none)]
          else [])
        , (if pyTruthyO (rowGet row FieldKey.exercise) = true then
            [ExerciseEntry.mk (rowGetD row FieldKey.date Value.none)
              (rowGetD row FieldKey.exercise Value.none)
              (rowGetD row FieldKey.duration (Value.num 0))
              (rowGetD row FieldKey.calories (Value.num 0))
              (rowGetD row FieldKey.notes Value.none)]
          else []) ) := by
      unfold convertRow
      rw [hts, hns]
      dsimp only
      rw [if_neg (by simp [hb])]
    refine ⟨_, _, convert_single row _ hcr, ?_, ?_, ?_, ?_⟩
    · intro hc; exact absurd hexp (by simpa using hc)
    · intro _; exact ⟨rfl, rfl⟩
    · intro h0
      constructor
      · by_cases hfood : pyTruthyO (rowGet row FieldKey.food) = true
        · rw [if_pos hfood]
          intro m hm
          simp only [List.mem_singleton] at hm
          subst hm
          exact hcal0 h0
        · rw [if_neg hfood]
          intro m hm
          simp at hm
      · by_cases hx : pyTruthyO (rowGet row FieldKey.exercise) = true
        · rw [if_pos hx]
          intro e he
          simp only [List.mem_singleton] at he
          subst he
          exact hcal0 h0
        · rw [if_neg hx]
          intro e he
          simp at he
    · intro h0
      by_cases hx : pyTruthyO (rowGet row FieldKey.exercise) = true
      · rw [if_pos hx]
        intro e he
        simp only [List.mem_singleton] at he
        subst he
        exact hdur0 h0
      · rw [if_neg hx]
        intro e he
        simp at he

/-- Witness for C6: the theorem applied to the explicit-layout row
`{type: "meal", name: "鸡肉"}`. -/
theorem C6_layout_dispatch_witness :
    ∃ ms es, convert_to_plan_items
        [[(FieldKey.ftype, Value.str "meal"), (FieldKey.name, Value.str "鸡肉")]]
      = Except.ok (PlanItems.mk ms es) := by
  obtain ⟨ms, es, h, _⟩ := C6_layout_dispatch
    [(FieldKey.ftype, Value.str "meal"), (FieldKey.name, Value.str "鸡肉")]
    (by decide) (by decide)
  exact ⟨ms, es, h⟩

/-- **C7 (counterexample).**  A file passing the existence, size,
extension and magic-number checks (a well-formed `.xlsx`), readable and
non-executable, is nonetheless rejected by `validate_file` when the
optional system MIME sniff succeeds and reports a mismatching type: the
MIME mismatch alone is fatal. -/
theorem C7_counterexample :
    FileValidator.validate_file
        (FileValidator.FileInfo.mk "plan.xlsx" true true 1000
          [0x50, 0x4B, 0x03, 0x04, 0, 0, 0, 0] true (Option.some "text/plain") true false)
      = (false, Option.none, Option.some "MIME 类型不匹配: text/plain")
    ∧ FileValidator.validate_magic_number
        (FileValidator.FileInfo.mk "plan.xlsx" true true 1000
          [0x50, 0x4B, 0x03, 0x04, 0, 0, 0, 0] true (Option.some "text/plain") true false)
        "excel" = true := by
  refine ⟨by decide, by decide⟩

/-- **C7 (amended).**  For a file that passes the existence, regular-file,
size, extension, magic-number and security checks, `validate_file`
returns valid exactly when the MIME stage does not reject: that is, when
the `python-magic` library is unavailable, or the sniff raises (and is
swallowed), or the sniffed MIME type is in the expected list.  A
successful sniff reporting a type outside the list is fatal even though
the magic-number check passed. -/
theorem C7_mime_gate (fi : FileValidator.FileInfo) (dt : String)
    (h1 : fi.pathExists = true) (h2 : fi.isFile = true)
    (h3 : FileValidator.MIN_FILE_SIZE ≤ fi.size)
    (h4 : fi.size ≤ FileValidator.MAX_FILE_SIZE)
    (h5 : FileValidator.detect_type_by_extension (lowerStr (FileValidator.pathSuffix fi.path))
            = Option.some dt)
    (h6 : FileValidator.validate_magic_number fi dt = true)
    (h7 : FileValidator.security_check fi = (true, Option.none)) :
    (FileValidator.validate_file fi).1 = true ↔
      (fi.hasMagicLib = false ∨ fi.mimeSniff = Option.none
        ∨ ∃ m, fi.mimeSniff = Option.some m
            ∧ (FileValidator.mimeTypesFor dt).contains m = true) := by
  have h3' : ¬ (fi.size < FileValidator.MIN_FILE_SIZE) := by omega
  have h4' : ¬ (fi.size > FileValidator.MAX_FILE_SIZE) := by omega
  unfold FileValidator.validate_file
  rw [if_neg (by rw [h1]; decide), if_neg (by rw [h2]; decide),
    if_neg h3', if_neg h4']
  dsimp only
  rw [h5]
  dsimp only
  rw [if_neg (by rw [h6]; decide)]
  cases hml : fi.hasMagicLib with
  | false =>
      simp [h7]
  | true =>
      cases hsn : fi.mimeSniff with
      | none =>
          simp [h7]
      | some m =>
          by_cases hmime : FileValidator.validate_mime_type m dt = true
          · simp [hmime, h7]
            exact (stringContains_iff_mem _ _).mp hmime
          · have hmf : FileValidator.validate_mime_type m dt = false :=
              Bool.eq_false_iff.mpr hmime
            simp [hmf]
            intro hc
            exact hmime ((stringContains_iff_mem _ _).mpr hc)

/-- Witness for C7: the theorem applied to a well-formed `.xlsx` file
on a system without the MIME library, concluding validity. -/
theorem C7_mime_gate_witness :
    (FileValidator.validate_file
        (FileValidator.FileInfo.mk "plan.xlsx" true true 1000
          [0x50, 0x4B, 0x03, 0x04, 0, 0, 0, 0] false Option.none true false)).1 = true := by
  exact (C7_mime_gate
    (FileValidator.FileInfo.mk "plan.xlsx" true true 1000
      [0x50, 0x4B, 0x03, 0x04, 0, 0, 0, 0] false Option.none true false)
    "excel" (by decide) (by decide) (by decide) (by decide) (by decide) (by decide)
    (by decide)).mpr (Or.inl rfl)

/-- **C8 (counterexample).**  A kind-`meal` row with the required `date`
present and `food`/`calories` absent yields zero errors but *two*
warnings, not exactly one: the missing-recommended-fields warning plus
the success summary warning that `validate_parsed_data` appends to every
error-free batch. -/
theorem C8_counterexample :
    (DataValidator.validate_parsed_data
        [[(FieldKey.date, Value.str "2024-01-01")]] "meal").errors = []
    ∧ (DataValidator.validate_parsed_data
        [[(FieldKey.date, Value.str "2024-01-01")]] "meal").warnings.length = 2 := by
  refine ⟨by decide, by decide⟩

/-- **C8 (amended).**  For a kind-`meal` batch of one row whose required
`date` is present and valid, whose `meal_time` is a present, non-empty,
length-bounded string, and whose `food` and `calories` are absent,
validation yields zero errors and exactly two warnings: the
missing-recommended-fields warning naming both `food` and `calories`,
followed by the informational row-count summary. -/
theorem C8_missing_recommended (d mt : String)
    (hd : (d == "") = false) (hmt : (mt == "") = false)
    (hvd : DataValidator.is_valid_date (Value.str d) = true)
    (hlen : DataValidator.is_valid_text (Value.str mt) 500 = true) :
    (DataValidator.validate_parsed_data
        [[(FieldKey.date, Value.str d), (FieldKey.meal_time, Value.str mt)]] "meal").errors = []
    ∧ (DataValidator.validate_parsed_data
        [[(FieldKey.date, Value.str d), (FieldKey.meal_time, Value.str mt)]] "meal").warnings
      = ["行 1 缺少推荐字段: food, calories", "成功验证 1 条数据"] := by
  have herrs : (DataValidator.validate_row
      [(FieldKey.date, Value.str d), (FieldKey.meal_time, Value.str mt)] 1 "meal").1 = [] := by
    unfold DataValidator.validate_row
    have hr : (DataValidator.requiredErrors
        [(FieldKey.date, Value.str d), (FieldKey.meal_time, Value.str mt)] 1 "meal") = [] := by
      unfold DataValidator.requiredErrors DataValidator.REQUIRED_FIELDS
      simp [rowGet, pyTruthyO, pyTruthy, hd]
    have hdt : (DataValidator.dateErrors
        [(FieldKey.date, Value.str d), (FieldKey.meal_time, Value.str mt)] 1) = [] := by
      unfold DataValidator.dateErrors
      simp [rowGet, pyTruthy, hvd]
    have hca : (DataValidator.caloriesErrors
        [(FieldKey.date, Value.str d), (FieldKey.meal_time, Value.str mt)] 1) = [] := by
      unfold DataValidator.caloriesErrors
      simp [rowGet]
    have hdu : (DataValidator.durationErrors
        [(FieldKey.date, Value.str d), (FieldKey.meal_time, Value.str mt)] 1) = [] := by
      unfold DataValidator.durationErrors
      simp [rowGet]
    have htx : (DataValidator.textErrors
        [(FieldKey.date, Value.str d), (FieldKey.meal_time, Value.str mt)] 1) = [] := by
      unfold DataValidator.textErrors DataValidator.text_fields
      simp [rowGet, pyTruthy, hlen]
    rw [hr, hdt, hca, hdu, htx]
    rfl
  have hwarn : (DataValidator.validate_row
      [(FieldKey.date, Value.str d), (FieldKey.meal_time, Value.str mt)] 1 "meal").2
      = ["行 1 缺少推荐字段: food, calories"] := by
    unfold DataValidator.validate_row DataValidator.recommendedWarnings
      DataValidator.RECOMMENDED_FIELDS
    simp [rowGet, pyTruthyO, pyTruthy, hmt, fieldName]
    rfl
  constructor
  · unfold DataValidator.validate_parsed_data
    rw [if_neg (by simp)]
    simp only [enumFrom, List.map_cons, List.map_nil, List.flatten]
    rw [herrs]
    simp
  · unfold DataValidator.validate_parsed_data
    rw [if_neg (by simp)]
    simp only [enumFrom, List.map_cons, List.map_nil, List.flatten]
    rw [herrs, hwarn]
    simp
    decide

/-- Witness for C8: the theorem applied at `date = "2024-01-01"`,
`meal_time = "早餐"`. -/
theorem C8_missing_recommended_witness :
    (DataValidator.validate_parsed_data
        [[(FieldKey.date, Value.str "2024-01-01"), (FieldKey.meal_time, Value.str "早餐")]]
        "meal").errors = []
    ∧ (DataValidator.validate_parsed_data
        [[(FieldKey.date, Value.str "2024-01-01"), (FieldKey.meal_time, Value.str "早餐")]]
        "meal").warnings
      = ["行 1 缺少推荐字段: food, calories", "成功验证 1 条数据"] := by
  exact C8_missing_recommended "2024-01-01" "早餐" (by decide) (by decide) (by decide) (by decide)

/-- Witness for C2 (amended): the typing invariant instantiated on a
concrete worksheet and its returned row. -/
theorem C2_extracted_row_typing_witness :
    anyTruthy [(FieldKey.date, Value.str "2024-01-01"), (FieldKey.food, Value.str "apple")] = true
    ∧ ∀ p ∈ ([(FieldKey.date, Value.str "2024-01-01"), (FieldKey.food, Value.str "apple")] : Row),
        excelFieldTyped p.1 p.2 := by
  exact C2_extracted_row_typing
    [[Value.str "date", Value.str "food"], [Value.str "2024-01-01", Value.str "apple"]]
    [(FieldKey.date, Value.str "2024-01-01"), (FieldKey.food, Value.str "apple")]
    (by decide)
